import Mathlib

/-!
# Sunrise and sunset hours of `astro.cpp`

Two shallow embeddings of the six numeric functions of `src/astro.cpp`.

* In the namespace `Astro` the formulas are evaluated over exact real
  arithmetic.
* In the namespace `Astro.Binary32` every `float` assignment and every `float`
  return of the source rounds its value to binary32 (round to nearest, ties
  to even), as the `float` type of the source does; the double-precision
  expression inside is taken exact.

In both, a value that may be NaN is an `Option ℝ`: `none` stands for "no real
value" (the C library `acos` outside `[-1, 1]`, or a quotient whose divisor is
zero, which in IEEE arithmetic is infinite or NaN and is NaN after `acos`),
and arithmetic on such a value propagates `none`.

The header `astro.h` is not among the sources; the two location macros
`BREITE` and `LAENGE` it provides are the fields of `Config`, and `PI` is the
mathematical constant.
-/

namespace Astro

/-- Modelled from the spec: the location macros `BREITE` (latitude, degrees) and
`LAENGE` (longitude, degrees) of the absent header `astro.h`, taken as
parameters of every function that reads them. -/
structure Config where
  BREITE : ℝ
  LAENGE : ℝ

/-- Modelled from the spec: `PI` (mathematical constant), a macro of the absent
platform header. -/
noncomputable def PI : ℝ := Real.pi

/-- Source line 7: `float _rad = PI/180.0;` -/
noncomputable def _rad : ℝ := PI / 180.0

/-- Source line 8: `float _h = -(50.0/60.0)*_rad;` -/
noncomputable def _h : ℝ := -(50.0 / 60.0) * _rad

/-- Source line 9: `float _b = BREITE * _rad;` -/
noncomputable def _b (c : Config) : ℝ := c.BREITE * _rad

/-- Source lines 12-15: the solar declination in radians. -/
noncomputable def sonnendeklination (T : ℝ) : ℝ :=
  0.409526325277017 * Real.sin (0.0169060504029192 * (T - 80.0856919827619))

/-- The C library `acos`: a value on `[-1, 1]`, NaN (here `none`) elsewhere. -/
noncomputable def acos (x : ℝ) : Option ℝ :=
  if -1 ≤ x ∧ x ≤ 1 then some (Real.arccos x) else none

/-- The quotient `a / b` as a real number; with a zero divisor the C value
is infinite or NaN, which `acos` turns into NaN, so there is no real value. -/
noncomputable def quotient (a b : ℝ) : Option ℝ :=
  if b = 0 then none else some (a / b)

/-- The argument handed to `acos` in source line 20 (when the divisor is not zero). -/
noncomputable def acosArg (c : Config) (Deklination : ℝ) : ℝ :=
  (Real.sin _h - Real.sin (_b c) * Real.sin Deklination) /
    (Real.cos (_b c) * Real.cos Deklination)

/-- Source lines 18-21: the half-day length in hours,
`12.0*acos((sin(_h)-sin(_b)*sin(Deklination))/(cos(_b)*cos(Deklination)))/PI`. -/
noncomputable def zeitdifferenz (c : Config) (Deklination : ℝ) : Option ℝ :=
  ((quotient (Real.sin _h - Real.sin (_b c) * Real.sin Deklination)
      (Real.cos (_b c) * Real.cos Deklination)).bind acos).map
    (fun a => 12.0 * a / PI)

/-- Source lines 24-27: the equation of time in hours. -/
noncomputable def zeitgleichung (T : ℝ) : ℝ :=
  -0.170869921174742 * Real.sin (0.0336997028793971 * T + 0.465419984181394)
    - 0.129890681040717 * Real.sin (0.0178674832556871 * T - 0.167936777524864)

/-- Source lines 30-33: `12 - zeitdifferenz(sonnendeklination(T)) - zeitgleichung(T)`. -/
noncomputable def _aufgang (c : Config) (T : ℝ) : Option ℝ :=
  (zeitdifferenz c (sonnendeklination T)).map (fun z => 12 - z - zeitgleichung T)

/-- Source lines 36-39: `12 + zeitdifferenz(sonnendeklination(T)) - zeitgleichung(T)`. -/
noncomputable def _untergang (c : Config) (T : ℝ) : Option ℝ :=
  (zeitdifferenz c (sonnendeklination T)).map (fun z => 12 + z - zeitgleichung T)

/-- Source lines 44-48: the integer `_zone`, 2 with daylight saving and 1 without. -/
def zone (isDST : Bool) : ℤ := if isDST then 2 else 1

/-- Source lines 42-50: `_aufgang(T) - LAENGE / 15.0 + _zone`. -/
noncomputable def sunrise (c : Config) (T : ℝ) (isDST : Bool) : Option ℝ :=
  (_aufgang c T).map (fun a => a - c.LAENGE / 15.0 + (zone isDST : ℝ))

/-- Source lines 53-61: `_untergang(T) - LAENGE / 15.0 + _zone`. -/
noncomputable def sunset (c : Config) (T : ℝ) (isDST : Bool) : Option ℝ :=
  (_untergang c T).map (fun a => a - c.LAENGE / 15.0 + (zone isDST : ℝ))

/-- The period of the declination formula, `2*pi/0.0169060504029192`. -/
noncomputable def deklinationPeriod : ℝ := 2 * Real.pi / 0.0169060504029192

/-- The mid-latitude configuration of the spec's scenarios: `BREITE = 50`, `LAENGE = 10`. -/
def mitteleuropa : Config := ⟨50, 10⟩

/-- A near-polar configuration: `BREITE = 80` with any longitude. -/
def polar (LAENGE : ℝ) : Config := ⟨80, LAENGE⟩

/-! ## Rounding to binary32

The source declares every variable, parameter and result `float`.  In the
definitions of the namespace `Binary32` below the value of each `float`
assignment, each `float` operation and each `float` return is rounded to
binary32 (round to nearest, ties to even).  An expression with a `double`
operand (a decimal constant, `PI`, the result of `sin`, `cos` or `acos`) is
evaluated in double precision, which is taken exact; it is rounded where it
is stored in or returned as a `float`.  Overflow is not modelled: with a
latitude and longitude in degrees every rounded quantity of this program is
far below `2^128`. -/

/-- Round to the nearest integer, ties to the even one. -/
noncomputable def roundEven (y : ℝ) : ℤ :=
  if Int.fract y < 1 / 2 then ⌊y⌋
  else if 1 / 2 < Int.fract y then ⌊y⌋ + 1
  else if Even ⌊y⌋ then ⌊y⌋ else ⌊y⌋ + 1

/-- The binary32 exponent of `x`: the `e` with `2^e ≤ |x| < 2^(e+1)`, and -126 for
the subnormal numbers and zero below that. -/
noncomputable def exponent (x : ℝ) : ℤ :=
  if x = 0 then -126 else max (Int.log 2 |x|) (-126)

/-- The binary32 number nearest to `x` (24 significant bits), ties to even. -/
noncomputable def f32 (x : ℝ) : ℝ :=
  (roundEven (x / (2 : ℝ) ^ (exponent x - 23)) : ℝ) * (2 : ℝ) ^ (exponent x - 23)

namespace Binary32

/-- Source line 7: `float _rad = PI/180.0;` -/
noncomputable def _rad : ℝ := f32 (PI / 180.0)

/-- Source line 8: `float _h = -(50.0/60.0)*_rad;` -/
noncomputable def _h : ℝ := f32 (-(50.0 / 60.0) * _rad)

/-- Source line 9: `float _b = BREITE * _rad;` -/
noncomputable def _b (c : Config) : ℝ := f32 (c.BREITE * _rad)

/-- Source lines 12-15, the result rounded to `float` on return. -/
noncomputable def sonnendeklination (T : ℝ) : ℝ :=
  f32 (0.409526325277017 * Real.sin (0.0169060504029192 * (T - 80.0856919827619)))

/-- The divisor `cos(_b)*cos(Deklination)` of source line 20. -/
noncomputable def divisor (c : Config) (Deklination : ℝ) : ℝ :=
  Real.cos (_b c) * Real.cos Deklination

/-- Source lines 18-21, the result rounded to `float` on return. -/
noncomputable def zeitdifferenz (c : Config) (Deklination : ℝ) : Option ℝ :=
  ((quotient (Real.sin _h - Real.sin (_b c) * Real.sin Deklination)
      (divisor c Deklination)).bind acos).map
    (fun a => f32 (12.0 * a / PI))

/-- Source lines 24-27, the result rounded to `float` on return. -/
noncomputable def zeitgleichung (T : ℝ) : ℝ :=
  f32 (-0.170869921174742 * Real.sin (0.0336997028793971 * T + 0.465419984181394)
    - 0.129890681040717 * Real.sin (0.0178674832556871 * T - 0.167936777524864))

/-- Source lines 30-33: `12 - zeitdifferenz(..)` subtracts a `float` from an `int`, a
`float` operation, and so is the subtraction of the `float` `zeitgleichung(T)`. -/
noncomputable def _aufgang (c : Config) (T : ℝ) : Option ℝ :=
  (zeitdifferenz c (sonnendeklination T)).map
    (fun z => f32 (f32 (12 - z) - zeitgleichung T))

/-- Source lines 36-39: `12 + zeitdifferenz(..)` adds a `float` to an `int`, a `float`
operation, and so is the subtraction of the `float` `zeitgleichung(T)`. -/
noncomputable def _untergang (c : Config) (T : ℝ) : Option ℝ :=
  (zeitdifferenz c (sonnendeklination T)).map
    (fun z => f32 (f32 (12 + z) - zeitgleichung T))

/-- Source lines 42-50: `LAENGE / 15.0` is a `double`, so the sum is formed in double
precision and rounded to `float` on return. -/
noncomputable def sunrise (c : Config) (T : ℝ) (isDST : Bool) : Option ℝ :=
  (_aufgang c T).map (fun a => f32 (a - c.LAENGE / 15.0 + (zone isDST : ℝ)))

/-- Source lines 53-61: `LAENGE / 15.0` is a `double`, so the sum is formed in double
precision and rounded to `float` on return. -/
noncomputable def sunset (c : Config) (T : ℝ) (isDST : Bool) : Option ℝ :=
  (_untergang c T).map (fun a => f32 (a - c.LAENGE / 15.0 + (zone isDST : ℝ)))

end Binary32
/-! ## Unfolding lemmas -/

theorem zeitdifferenz_eq_some (c : Config) (D : ℝ)
    (hden : Real.cos (_b c) * Real.cos D ≠ 0)
    (hlo : -1 ≤ acosArg c D) (hhi : acosArg c D ≤ 1) :
    zeitdifferenz c D = some (12.0 * Real.arccos (acosArg c D) / PI) := by
  unfold zeitdifferenz quotient acos
  rw [if_neg hden]
  simp only [Option.some_bind]
  rw [if_pos ⟨hlo, hhi⟩]
  rfl

theorem zeitdifferenz_eq_none_of_lt (c : Config) (D : ℝ)
    (hlo : acosArg c D < -1) : zeitdifferenz c D = none := by
  unfold acosArg at hlo
  unfold zeitdifferenz quotient acos
  by_cases hden : Real.cos (_b c) * Real.cos D = 0
  · rw [if_pos hden]; rfl
  · rw [if_neg hden]
    simp only [Option.some_bind]
    rw [if_neg (fun h => absurd h.1 (not_le.mpr hlo))]
    rfl

theorem sunrise_eq_map (c : Config) (T : ℝ) (isDST : Bool) :
    sunrise c T isDST = (zeitdifferenz c (sonnendeklination T)).map
      (fun z => 12 - z - zeitgleichung T - c.LAENGE / 15.0 + (zone isDST : ℝ)) := by
  unfold sunrise _aufgang
  cases zeitdifferenz c (sonnendeklination T) <;> rfl

theorem sunset_eq_map (c : Config) (T : ℝ) (isDST : Bool) :
    sunset c T isDST = (zeitdifferenz c (sonnendeklination T)).map
      (fun z => 12 + z - zeitgleichung T - c.LAENGE / 15.0 + (zone isDST : ℝ)) := by
  unfold sunset _untergang
  cases zeitdifferenz c (sonnendeklination T) <;> rfl

/-! ## The horizon angle and the range of the declination -/

theorem h_eq : _h = -(Real.pi / 216) := by
  unfold _h _rad PI
  norm_num
  ring

theorem sin_h_eq : Real.sin _h = -Real.sin (Real.pi / 216) := by
  rw [h_eq, Real.sin_neg]

theorem sin_horizon_pos : 0 < Real.sin (Real.pi / 216) := by
  apply Real.sin_pos_of_pos_of_lt_pi
  · positivity
  · linarith [Real.pi_pos]

theorem abs_sonnendeklination_le (T : ℝ) :
    |sonnendeklination T| ≤ 0.409526325277017 := by
  unfold sonnendeklination
  rw [abs_mul, abs_of_pos (by norm_num : (0 : ℝ) < 0.409526325277017)]
  have := Real.abs_sin_le_one (0.0169060504029192 * (T - 80.0856919827619))
  nlinarith

/-! ## When the arccosine argument lies strictly inside `(-1, 1)` -/

theorem divisor_pos_of_abs_lt (b D : ℝ) (hb : |b| < Real.pi / 2) (hD : |D| < Real.pi / 2) :
    0 < Real.cos b * Real.cos D := by
  have hb2 := abs_lt.mp hb
  have hD2 := abs_lt.mp hD
  exact mul_pos (Real.cos_pos_of_mem_Ioo ⟨by linarith, hb2.2⟩)
    (Real.cos_pos_of_mem_Ioo ⟨by linarith, hD2.2⟩)

theorem acosArg_mem_Ioo (c : Config) (D : ℝ)
    (hsum : |_b c| + |D| < Real.pi / 2 - Real.pi / 216) :
    0 < Real.cos (_b c) * Real.cos D ∧ -1 < acosArg c D ∧ acosArg c D < 1 := by
  have hpi := Real.pi_pos
  have hb0 := abs_nonneg (_b c)
  have hD0 := abs_nonneg D
  have hden : 0 < Real.cos (_b c) * Real.cos D :=
    divisor_pos_of_abs_lt _ _ (by linarith) (by linarith)
  have hsub : |_b c - D| ≤ Real.pi / 2 := by
    have := abs_sub (_b c) D
    linarith
  have hadd : |_b c + D| < Real.pi / 2 - Real.pi / 216 := by
    have := abs_add (_b c) D
    linarith
  have hcsub : 0 ≤ Real.cos (_b c - D) := by
    have h2 := abs_le.mp hsub
    exact Real.cos_nonneg_of_mem_Icc ⟨by linarith [h2.1], h2.2⟩
  have hcadd : Real.sin (Real.pi / 216) < Real.cos (_b c + D) := by
    rw [← Real.cos_abs (_b c + D), ← Real.cos_pi_div_two_sub]
    exact Real.cos_lt_cos_of_nonneg_of_le_pi (abs_nonneg _) (by linarith) hadd
  have hs := sin_horizon_pos
  rw [Real.cos_sub] at hcsub
  rw [Real.cos_add] at hcadd
  refine ⟨hden, ?_, ?_⟩
  · unfold acosArg
    rw [lt_div_iff₀ hden, sin_h_eq]
    linarith
  · unfold acosArg
    rw [div_lt_one hden, sin_h_eq]
    linarith

theorem abs_b_le (c : Config) (B : ℝ) (hB : |c.BREITE| ≤ B) : |_b c| ≤ B * (Real.pi / 180) := by
  unfold _b _rad PI
  rw [abs_mul, abs_of_pos (by positivity : (0 : ℝ) < Real.pi / 180.0)]
  have : (0 : ℝ) < Real.pi / 180 := by positivity
  norm_num
  nlinarith

theorem sum_lt_of_breite_le_65 (c : Config) (hB : |c.BREITE| ≤ 65) (T : ℝ) :
    |_b c| + |sonnendeklination T| < Real.pi / 2 - Real.pi / 216 := by
  have h1 := abs_b_le c 65 hB
  have h2 := abs_sonnendeklination_le T
  have h3 := Real.pi_gt_d2
  norm_num at h2 h3 ⊢
  linarith

theorem PI_pos : 0 < PI := Real.pi_pos

/-- Up to 65 degrees of latitude the half-day length is defined on every day and lies
strictly between 0 and 12 hours. -/
theorem zeitdifferenz_defined_of_breite_le_65 (c : Config) (hB : |c.BREITE| ≤ 65) (T : ℝ) :
    ∃ H, zeitdifferenz c (sonnendeklination T) = some H ∧ 0 < H ∧ H < 12 := by
  obtain ⟨hden, hlo, hhi⟩ := acosArg_mem_Ioo c (sonnendeklination T)
    (sum_lt_of_breite_le_65 c hB T)
  refine ⟨_, zeitdifferenz_eq_some c _ hden.ne' hlo.le hhi.le, ?_, ?_⟩
  · have := Real.arccos_pos.mpr hhi
    have hp := PI_pos
    positivity
  · have h1 : Real.arccos (acosArg c (sonnendeklination T)) < Real.pi := by
      rcases (Real.arccos_le_pi (acosArg c (sonnendeklination T))).lt_or_eq with h | h
      · exact h
      · exact absurd (Real.arccos_eq_pi.mp h) (not_le.mpr hlo)
    unfold PI
    rw [div_lt_iff₀ Real.pi_pos]
    norm_num
    linarith

/-! ## Values once the half-day length is known -/

theorem sunrise_sunset_of_zeitdifferenz (c : Config) (T H : ℝ) (isDST : Bool)
    (hH : zeitdifferenz c (sonnendeklination T) = some H) :
    sunrise c T isDST = some (12 - H - zeitgleichung T - c.LAENGE / 15.0 + (zone isDST : ℝ)) ∧
    sunset c T isDST = some (12 + H - zeitgleichung T - c.LAENGE / 15.0 + (zone isDST : ℝ)) := by
  rw [sunrise_eq_map, sunset_eq_map, hH]
  exact ⟨rfl, rfl⟩

theorem abs_breite_mitteleuropa : |mitteleuropa.BREITE| ≤ 65 := by
  unfold mitteleuropa
  norm_num

/-! ## Daylight saving and longitude shifts -/

/-- C1: the daylight-saving flag shifts sunrise and sunset by exactly one hour, for every
day `T` and every configuration: the value with the flag set is the value without it
plus 1 (and the one is undefined exactly when the other is), so whenever the values are
defined `sunrise(T, true) - sunrise(T, false) = 1` and `sunset(T, true) - sunset(T, false) = 1`. -/
theorem dst_shifts_one_hour (c : Config) (T : ℝ) :
    sunrise c T true = (sunrise c T false).map (fun r => r + 1) ∧
    sunset c T true = (sunset c T false).map (fun s => s + 1) ∧
    (∀ r0 r1, sunrise c T false = some r0 → sunrise c T true = some r1 → r1 - r0 = 1) ∧
    (∀ s0 s1, sunset c T false = some s0 → sunset c T true = some s1 → s1 - s0 = 1) := by
  simp only [sunrise_eq_map, sunset_eq_map]
  cases zeitdifferenz c (sonnendeklination T) with
  | none =>
    refine ⟨rfl, rfl, ?_, ?_⟩ <;>
    · intro x y hx
      simp at hx
  | some z =>
    refine ⟨?_, ?_, ?_, ?_⟩
    · simp only [Option.map_some', zone]
      congr 1
      norm_num
      ring
    · simp only [Option.map_some', zone]
      congr 1
      norm_num
      ring
    · intro r0 r1 h0 h1
      simp only [Option.map_some', Option.some.injEq, zone] at h0 h1
      rw [← h0, ← h1]
      norm_num
    · intro s0 s1 h0 h1
      simp only [Option.map_some', Option.some.injEq, zone] at h0 h1
      rw [← h0, ← h1]
      norm_num

/-- At `BREITE = 50`, `LAENGE = 10`, day 80 all four values are defined and the flag adds
exactly one hour to each. -/
theorem dst_shifts_one_hour_witness :
    ∃ r0 r1 s0 s1, sunrise mitteleuropa 80 false = some r0 ∧
      sunrise mitteleuropa 80 true = some r1 ∧ sunset mitteleuropa 80 false = some s0 ∧
      sunset mitteleuropa 80 true = some s1 ∧ r1 - r0 = 1 ∧ s1 - s0 = 1 := by
  obtain ⟨H, hH, _, _⟩ :=
    zeitdifferenz_defined_of_breite_le_65 mitteleuropa abs_breite_mitteleuropa 80
  obtain ⟨hr0, hs0⟩ := sunrise_sunset_of_zeitdifferenz mitteleuropa 80 H false hH
  obtain ⟨hr1, hs1⟩ := sunrise_sunset_of_zeitdifferenz mitteleuropa 80 H true hH
  exact ⟨_, _, _, _, hr0, hr1, hs0, hs1,
    (dst_shifts_one_hour mitteleuropa 80).2.2.1 _ _ hr0 hr1,
    (dst_shifts_one_hour mitteleuropa 80).2.2.2 _ _ hs0 hs1⟩

/-- Over exact real arithmetic, raising the configured longitude from `L` to `L + 15`
degrees, latitude held fixed, lowers sunrise and sunset by exactly 1.0 for every day and
flag: the new value is the old one minus 1 (undefined exactly when the old one is). -/
theorem longitude_plus_15_exact (B L T : ℝ) (isDST : Bool) :
    sunrise ⟨B, L + 15⟩ T isDST = (sunrise ⟨B, L⟩ T isDST).map (fun r => r - 1) ∧
    sunset ⟨B, L + 15⟩ T isDST = (sunset ⟨B, L⟩ T isDST).map (fun s => s - 1) ∧
    (∀ r0 r1, sunrise ⟨B, L⟩ T isDST = some r0 → sunrise ⟨B, L + 15⟩ T isDST = some r1 →
      r0 - r1 = 1) ∧
    (∀ s0 s1, sunset ⟨B, L⟩ T isDST = some s0 → sunset ⟨B, L + 15⟩ T isDST = some s1 →
      s0 - s1 = 1) := by
  simp only [sunrise_eq_map, sunset_eq_map]
  have hz : zeitdifferenz ⟨B, L + 15⟩ (sonnendeklination T)
      = zeitdifferenz ⟨B, L⟩ (sonnendeklination T) := rfl
  rw [hz]
  cases zeitdifferenz ⟨B, L⟩ (sonnendeklination T) with
  | none =>
    refine ⟨rfl, rfl, ?_, ?_⟩ <;>
    · intro x y hx
      simp at hx
  | some z =>
    refine ⟨?_, ?_, ?_, ?_⟩
    · simp only [Option.map_some']
      congr 1
      norm_num
      ring
    · simp only [Option.map_some']
      congr 1
      norm_num
      ring
    · intro r0 r1 h0 h1
      simp only [Option.map_some', Option.some.injEq] at h0 h1
      rw [← h0, ← h1]
      norm_num
      ring
    · intro s0 s1 h0 h1
      simp only [Option.map_some', Option.some.injEq] at h0 h1
      rw [← h0, ← h1]
      norm_num
      ring

/-! ## Day length at a mid-latitude -/

/-- C3: with `BREITE = 50` and `LAENGE = 10`, on every day `d` (every real `d`, so in
particular every `d` with `1 ≤ d ≤ 366`) sunrise and sunset without daylight saving are
both defined and sunrise is strictly earlier than sunset. -/
theorem sunrise_lt_sunset_mitteleuropa (d : ℝ) :
    ∃ r s, sunrise mitteleuropa d false = some r ∧ sunset mitteleuropa d false = some s ∧
      r < s := by
  obtain ⟨H, hH, hpos, _⟩ :=
    zeitdifferenz_defined_of_breite_le_65 mitteleuropa abs_breite_mitteleuropa d
  obtain ⟨hr, hs⟩ := sunrise_sunset_of_zeitdifferenz mitteleuropa d H false hH
  exact ⟨_, _, hr, hs, by linarith⟩

/-! ## Symmetry about solar noon -/

theorem sonnendeklination_add_period (T : ℝ) :
    sonnendeklination (T + 2 * Real.pi / 0.0169060504029192) = sonnendeklination T := by
  unfold sonnendeklination
  have h : (0.0169060504029192 : ℝ) * (T + 2 * Real.pi / 0.0169060504029192 - 80.0856919827619)
      = 0.0169060504029192 * (T - 80.0856919827619) + 2 * Real.pi := by
    field_simp
    ring
  rw [h, Real.sin_add_two_pi]

/-! ## Midsummer at 80 degrees north -/

theorem sonnendeklination_172_gt : 0.4 < sonnendeklination 172 := by
  unfold sonnendeklination
  have hx0 : (0 : ℝ) ≤ 0.0169060504029192 * (172 - 80.0856919827619) := by norm_num
  have hx1 : (0.0169060504029192 : ℝ) * (172 - 80.0856919827619) ≤ Real.pi / 2 := by
    have := Real.pi_gt_d2
    norm_num at this ⊢
    linarith
  have hsin := Real.mul_le_sin hx0 hx1
  have hlow : (0.98 : ℝ) ≤
      2 / Real.pi * (0.0169060504029192 * (172 - 80.0856919827619)) := by
    rw [div_mul_eq_mul_div, le_div_iff₀ Real.pi_pos]
    have := Real.pi_lt_d2
    norm_num at this ⊢
    linarith
  have : (0.98 : ℝ) ≤ Real.sin (0.0169060504029192 * (172 - 80.0856919827619)) :=
    hlow.trans hsin
  norm_num at this ⊢
  linarith

theorem b_polar (L : ℝ) : _b (polar L) = 4 * Real.pi / 9 := by
  unfold _b polar _rad PI
  norm_num
  ring

/-- C5: with `BREITE = 80` on day 172 the divisor is positive and the arccosine argument
`(sin(h) - sin(b)*sin(decl)) / (cos(b)*cos(decl))` for `decl = sonnendeklination(172)` is
below -1, outside `[-1, 1]`; `zeitdifferenz` therefore has no value, and neither have
`sunrise(172, f)` and `sunset(172, f)`, for either flag and any longitude. -/
theorem polar_midsummer_undefined (L : ℝ) (isDST : Bool) :
    0 < Real.cos (_b (polar L)) * Real.cos (sonnendeklination 172) ∧
    acosArg (polar L) (sonnendeklination 172) < -1 ∧
    zeitdifferenz (polar L) (sonnendeklination 172) = none ∧
    sunrise (polar L) 172 isDST = none ∧ sunset (polar L) 172 isDST = none := by
  have hlo := sonnendeklination_172_gt
  have hhi := (abs_le.mp (abs_sonnendeklination_le 172)).2
  have hp2 := Real.pi_gt_d2
  have hp3 := Real.pi_lt_d2
  norm_num at hlo hhi hp2 hp3
  have hden : 0 < Real.cos (_b (polar L)) * Real.cos (sonnendeklination 172) := by
    apply divisor_pos_of_abs_lt
    · rw [b_polar, abs_of_pos (by positivity)]
      linarith
    · rw [abs_of_pos (by linarith)]
      linarith
  have hcos : Real.cos (_b (polar L) + sonnendeklination 172) < 0 := by
    rw [b_polar]
    apply Real.cos_neg_of_pi_div_two_lt_of_lt <;> linarith
  have harg : acosArg (polar L) (sonnendeklination 172) < -1 := by
    unfold acosArg
    rw [div_lt_iff₀ hden, sin_h_eq]
    rw [Real.cos_add] at hcos
    have := sin_horizon_pos
    linarith
  have hz := zeitdifferenz_eq_none_of_lt (polar L) (sonnendeklination 172) harg
  refine ⟨hden, harg, hz, ?_, ?_⟩
  · rw [sunrise_eq_map, hz]; rfl
  · rw [sunset_eq_map, hz]; rfl

/-! ## The length of the period -/

theorem abs_sin_sub_sin_le (x y : ℝ) : |Real.sin x - Real.sin y| ≤ |x - y| := by
  rw [Real.sin_sub_sin, abs_mul, abs_mul]
  have h1 : |Real.sin ((x - y) / 2)| ≤ |(x - y) / 2| := Real.abs_sin_le_abs
  have h2 : |Real.cos ((x + y) / 2)| ≤ 1 := Real.abs_cos_le_one _
  have h3 : |(x - y) / 2| = |x - y| / 2 := by
    rw [abs_div, abs_of_pos (by norm_num : (0 : ℝ) < 2)]
  have h4 := abs_nonneg (Real.sin ((x - y) / 2))
  have h5 := abs_nonneg (Real.cos ((x + y) / 2))
  rw [abs_of_pos (by norm_num : (0 : ℝ) < 2)]
  rw [h3] at h1
  nlinarith

theorem deklinationPeriod_bounds :
    371.652 < deklinationPeriod ∧ deklinationPeriod < 371.654 := by
  unfold deklinationPeriod
  have h1 := Real.pi_gt_d6
  have h2 := Real.pi_lt_d6
  constructor
  · rw [lt_div_iff₀ (by norm_num)]
    norm_num at h1 ⊢
    linarith
  · rw [div_lt_iff₀ (by norm_num)]
    norm_num at h2 ⊢
    linarith

/-- The angle by which 371.74 days overshoot one full turn of the declination formula. -/
theorem overshoot_bounds :
    0.00146 < 0.0169060504029192 * (371.74 : ℝ) - 2 * Real.pi ∧
    0.0169060504029192 * (371.74 : ℝ) - 2 * Real.pi < 0.00148 := by
  have h1 := Real.pi_gt_d6
  have h2 := Real.pi_lt_d6
  constructor <;> norm_num at h1 h2 ⊢ <;> linarith

/-- C8, as stated, fails: at `d = 80.0856919827619` the declination is 0, and 371.74 days
later it exceeds `1e-6` (it is about `6e-4`). -/
theorem sonnendeklination_shift_37174_counterexample :
    ¬ (|sonnendeklination (80.0856919827619 + 371.74) - sonnendeklination 80.0856919827619|
        ≤ 0.000001) := by
  obtain ⟨hlo, hhi⟩ := overshoot_bounds
  have h0 : sonnendeklination 80.0856919827619 = 0 := by
    unfold sonnendeklination
    norm_num
  have harg : (0.0169060504029192 : ℝ) * (80.0856919827619 + 371.74 - 80.0856919827619)
      = (0.0169060504029192 * 371.74 - 2 * Real.pi) + 2 * Real.pi := by ring
  have hsin := Real.mul_le_sin (le_of_lt (lt_trans (by norm_num) hlo))
    (le_of_lt (lt_trans hhi (by linarith [Real.pi_gt_three])))
  have hfac : (0.0009 : ℝ) ≤ 2 / Real.pi * (0.0169060504029192 * 371.74 - 2 * Real.pi) := by
    rw [div_mul_eq_mul_div, le_div_iff₀ Real.pi_pos]
    have := Real.pi_lt_d2
    norm_num at this hlo ⊢
    linarith
  have h1 : sonnendeklination (80.0856919827619 + 371.74)
      = 0.409526325277017 * Real.sin (0.0169060504029192 * 371.74 - 2 * Real.pi) := by
    unfold sonnendeklination
    rw [harg, Real.sin_add_two_pi]
  rw [h0, h1, sub_zero, not_le]
  have hs : (0.0009 : ℝ) ≤ Real.sin (0.0169060504029192 * 371.74 - 2 * Real.pi) :=
    hfac.trans hsin
  rw [abs_of_pos (by nlinarith)]
  nlinarith

/-- C8, amended: 371.74 days later the declination differs by at most `1e-3` on every
day, and the period `2*pi/0.0169060504029192` is 371.65 to two decimals. -/
theorem sonnendeklination_shift_37174_le (d : ℝ) :
    |sonnendeklination (d + 371.74) - sonnendeklination d| ≤ 0.001 ∧
    |deklinationPeriod - 371.65| < 0.005 := by
  obtain ⟨hlo, hhi⟩ := overshoot_bounds
  constructor
  · unfold sonnendeklination
    have harg : (0.0169060504029192 : ℝ) * (d + 371.74 - 80.0856919827619)
        = (0.0169060504029192 * (d - 80.0856919827619)
            + (0.0169060504029192 * 371.74 - 2 * Real.pi)) + 2 * Real.pi := by ring
    rw [harg, Real.sin_add_two_pi, ← mul_sub, abs_mul,
      abs_of_pos (by norm_num : (0 : ℝ) < 0.409526325277017)]
    have h := abs_sin_sub_sin_le
      (0.0169060504029192 * (d - 80.0856919827619)
        + (0.0169060504029192 * 371.74 - 2 * Real.pi))
      (0.0169060504029192 * (d - 80.0856919827619))
    rw [add_sub_cancel_left, abs_of_pos (lt_trans (by norm_num) hlo)] at h
    nlinarith
  · obtain ⟨h1, h2⟩ := deklinationPeriod_bounds
    rw [abs_lt]
    constructor <;> norm_num at h1 h2 ⊢ <;> linarith

/-- C10, as stated, fails: the period of the declination formula is more than 6 days
away from 365.24, not within 0.5 day. -/
theorem deklinationPeriod_not_year :
    ¬ (|deklinationPeriod - 365.24| ≤ 0.5) := by
  obtain ⟨h1, _⟩ := deklinationPeriod_bounds
  rw [not_le]
  refine lt_of_lt_of_le ?_ (le_abs_self _)
  norm_num at h1 ⊢
  linarith

/-- C10, amended: the angular frequency `0.0169060504029192` of `sonnendeklination`
encodes a period of about 371.65 days: `2*pi/0.0169060504029192` lies within 0.5 day of
371.65, and after that many days the declination repeats. -/
theorem deklinationPeriod_near_37165 :
    |deklinationPeriod - 371.65| ≤ 0.5 ∧
    ∀ T, sonnendeklination (T + deklinationPeriod) = sonnendeklination T := by
  obtain ⟨h1, h2⟩ := deklinationPeriod_bounds
  constructor
  · rw [abs_le]
    constructor <;> norm_num at h1 h2 ⊢ <;> linarith
  · exact fun T => sonnendeklination_add_period T

/-! ## The range of the equation of time -/

theorem abs_zeitgleichung_le_sum (T : ℝ) :
    |zeitgleichung T| ≤ 0.170869921174742 + 0.129890681040717 := by
  unfold zeitgleichung
  have h1 := abs_le.mp (Real.abs_sin_le_one (0.0336997028793971 * T + 0.465419984181394))
  have h2 := abs_le.mp (Real.abs_sin_le_one (0.0178674832556871 * T - 0.167936777524864))
  rw [abs_le]
  constructor <;> nlinarith [h1.1, h1.2, h2.1, h2.2]

theorem neg_sin_eq_cos_seven (x : ℝ) : -Real.sin x = Real.cos (7 * Real.pi / 2 - x) := by
  have h : 7 * Real.pi / 2 - x = (Real.pi / 2 - x) + Real.pi + 2 * Real.pi := by ring
  rw [h, Real.cos_add_two_pi, Real.cos_add_pi, Real.cos_pi_div_two_sub]

theorem neg_sin_eq_cos_three (x : ℝ) : -Real.sin x = Real.cos (3 * Real.pi / 2 - x) := by
  have h : 3 * Real.pi / 2 - x = (Real.pi / 2 - x) + Real.pi := by ring
  rw [h, Real.cos_add_pi, Real.cos_pi_div_two_sub]

theorem one_sub_le_cos_of_abs_le (x e : ℝ) (h : |x| ≤ e) : 1 - e ^ 2 / 2 ≤ Real.cos x := by
  have h1 : 1 - x ^ 2 / 2 ≤ Real.cos x := Real.one_sub_sq_div_two_le_cos
  have h2 : x ^ 2 ≤ e ^ 2 := sq_le_sq.mpr (by rwa [abs_of_nonneg ((abs_nonneg x).trans h)])
  linarith

theorem zeitgleichung_306_gt : 0.274 < zeitgleichung 306 := by
  have hp1 := Real.pi_gt_d6
  have hp2 := Real.pi_lt_d6
  have hy : |7 * Real.pi / 2 - (0.0336997028793971 * 306 + 0.465419984181394)| ≤ 0.2181 := by
    rw [abs_le]
    constructor <;> norm_num at hp1 hp2 ⊢ <;> linarith
  have hz : |3 * Real.pi / 2 - (0.0178674832556871 * 306 - 0.167936777524864)| ≤ 0.5872 := by
    rw [abs_le]
    constructor <;> norm_num at hp1 hp2 ⊢ <;> linarith
  have c1 := one_sub_le_cos_of_abs_le _ _ hy
  have c2 := one_sub_le_cos_of_abs_le _ _ hz
  rw [← neg_sin_eq_cos_seven] at c1
  rw [← neg_sin_eq_cos_three] at c2
  unfold zeitgleichung
  norm_num at c1 c2 ⊢
  linarith

/-- C6, as stated, fails: on day 306 the equation of time is above 0.27 (about 0.275). -/
theorem zeitgleichung_exceeds_027 :
    ¬ (-0.27 ≤ zeitgleichung 306 ∧ zeitgleichung 306 ≤ 0.27) := by
  have h := zeitgleichung_306_gt
  rintro ⟨_, h2⟩
  norm_num at h h2
  linarith

/-- C6, amended: for every real `T` the equation of time stays within `[-0.301, 0.301]`
hours, the sum of the two amplitudes rounded up. -/
theorem zeitgleichung_within_0301 (T : ℝ) :
    -0.301 ≤ zeitgleichung T ∧ zeitgleichung T ≤ 0.301 := by
  have h := abs_le.mp (abs_zeitgleichung_le_sum T)
  constructor <;> norm_num at h ⊢ <;> linarith [h.1, h.2]

/-! ## The reference scenario: latitude 50, longitude 10, day 80 -/

theorem sin_small_bounds (x : ℝ) (h0 : 0 < x) (h1 : x ≤ 1) :
    x - x ^ 3 / 4 < Real.sin x ∧ Real.sin x < x :=
  ⟨Real.sin_gt_sub_cube h0 h1, Real.sin_lt h0⟩

theorem sonnendeklination_80_bounds :
    -0.0006 < sonnendeklination 80 ∧ sonnendeklination 80 < -0.00059 := by
  unfold sonnendeklination
  have harg : (0.0169060504029192 : ℝ) * (80 - 80.0856919827619)
      = -(0.0169060504029192 * 0.0856919827619) := by norm_num
  rw [harg, Real.sin_neg]
  obtain ⟨h1, h2⟩ := sin_small_bounds (0.0169060504029192 * 0.0856919827619)
    (by norm_num) (by norm_num)
  constructor <;> norm_num at h1 h2 ⊢ <;> linarith

theorem cos_le_of_mem (x lo hi : ℝ) (h0 : 0 ≤ lo) (hlo : lo ≤ x) (hhi : x ≤ hi) (h1 : hi ≤ 1) :
    Real.cos x ≤ 1 - lo ^ 2 / 2 + hi ^ 4 * (5 / 96) := by
  have hx0 : 0 ≤ x := h0.trans hlo
  have hb := Real.cos_bound (show |x| ≤ 1 by rw [abs_of_nonneg hx0]; linarith)
  rw [abs_of_nonneg hx0] at hb
  have h2 : lo ^ 2 ≤ x ^ 2 := pow_le_pow_left₀ h0 hlo 2
  have h4 : x ^ 4 ≤ hi ^ 4 := pow_le_pow_left₀ hx0 hhi 4
  have := (abs_le.mp hb).2
  linarith

theorem zeitgleichung_80_bounds :
    -0.1204 < zeitgleichung 80 ∧ zeitgleichung 80 < -0.1202 := by
  have hp1 := Real.pi_gt_d6
  have hp2 := Real.pi_lt_d6
  -- first harmonic: the argument is a little more than pi
  have e1 : Real.sin (0.0336997028793971 * 80 + 0.465419984181394)
      = -Real.sin (0.0336997028793971 * 80 + 0.465419984181394 - Real.pi) := by
    rw [Real.sin_sub_pi, neg_neg]
  have b1lo : (0.0198 : ℝ) < 0.0336997028793971 * 80 + 0.465419984181394 - Real.pi := by
    norm_num at hp2 ⊢; linarith
  have b1hi : (0.0336997028793971 : ℝ) * 80 + 0.465419984181394 - Real.pi < 0.01981 := by
    norm_num at hp1 ⊢; linarith
  obtain ⟨s1, s2⟩ := sin_small_bounds
    (0.0336997028793971 * 80 + 0.465419984181394 - Real.pi) (by linarith) (by linarith)
  have hcube : (0.0336997028793971 * 80 + 0.465419984181394 - Real.pi) ^ 3
      ≤ (0.01981 : ℝ) ^ 3 := pow_le_pow_left₀ (by linarith) b1hi.le 3
  -- second harmonic: the argument is a little less than pi/2
  have e2 : Real.sin (0.0178674832556871 * 80 - 0.167936777524864)
      = Real.cos (Real.pi / 2 - (0.0178674832556871 * 80 - 0.167936777524864)) := by
    rw [Real.cos_pi_div_two_sub]
  have b2lo : (0.3093 : ℝ) ≤ Real.pi / 2 - (0.0178674832556871 * 80 - 0.167936777524864) := by
    norm_num at hp1 ⊢; linarith
  have b2hi : Real.pi / 2 - (0.0178674832556871 * 80 - 0.167936777524864) ≤ (0.3094 : ℝ) := by
    norm_num at hp2 ⊢; linarith
  have c1 := one_sub_le_cos_of_abs_le _ 0.3094
    (show |Real.pi / 2 - (0.0178674832556871 * 80 - 0.167936777524864)| ≤ 0.3094 by
      rw [abs_of_nonneg (by linarith)]; exact b2hi)
  have c2 := cos_le_of_mem _ 0.3093 0.3094 (by norm_num) b2lo b2hi (by norm_num)
  unfold zeitgleichung
  rw [e1, e2]
  constructor <;> norm_num at s1 s2 hcube c1 c2 b1lo b1hi ⊢ <;> linarith

theorem sin_bounds_of_mem (x lo hi : ℝ) (h0 : 0 ≤ lo) (hlo : lo ≤ x) (hhi : x ≤ hi)
    (h1 : hi ≤ 1) :
    lo - hi ^ 3 / 6 - hi ^ 4 * (5 / 96) ≤ Real.sin x ∧
    Real.sin x ≤ hi - lo ^ 3 / 6 + hi ^ 4 * (5 / 96) := by
  have hx0 : 0 ≤ x := h0.trans hlo
  have hb := Real.sin_bound (show |x| ≤ 1 by rw [abs_of_nonneg hx0]; linarith)
  rw [abs_of_nonneg hx0] at hb
  have h3 : lo ^ 3 ≤ x ^ 3 := pow_le_pow_left₀ h0 hlo 3
  have h3' : x ^ 3 ≤ hi ^ 3 := pow_le_pow_left₀ hx0 hhi 3
  have h4 : x ^ 4 ≤ hi ^ 4 := pow_le_pow_left₀ hx0 hhi 4
  obtain ⟨ha, hb'⟩ := abs_le.mp hb
  constructor <;> linarith

theorem b_mitteleuropa : _b mitteleuropa = 5 * Real.pi / 18 := by
  unfold _b mitteleuropa _rad PI
  norm_num
  ring

theorem cos_b_mitteleuropa_bounds :
    0.6289 ≤ Real.cos (_b mitteleuropa) ∧ Real.cos (_b mitteleuropa) ≤ 0.654 := by
  have hp1 := Real.pi_gt_d6
  have hp2 := Real.pi_lt_d6
  have e : Real.cos (_b mitteleuropa) = Real.sin (2 * Real.pi / 9) := by
    rw [b_mitteleuropa, ← Real.cos_pi_div_two_sub]
    congr 1
    ring
  obtain ⟨h1, h2⟩ := sin_bounds_of_mem (2 * Real.pi / 9) 0.6981 0.6982 (by norm_num)
    (by norm_num at hp1 ⊢; linarith) (by norm_num at hp2 ⊢; linarith) (by norm_num)
  rw [e]
  constructor <;> norm_num at h1 h2 ⊢ <;> linarith

theorem sin_b_mitteleuropa_bounds :
    0 ≤ Real.sin (_b mitteleuropa) ∧ Real.sin (_b mitteleuropa) ≤ 1 := by
  refine ⟨?_, Real.sin_le_one _⟩
  rw [b_mitteleuropa]
  apply Real.sin_nonneg_of_nonneg_of_le_pi
  · positivity
  · linarith [Real.pi_pos]

theorem acosArg_80_bounds :
    0 < Real.cos (_b mitteleuropa) * Real.cos (sonnendeklination 80) ∧
    -0.0232 ≤ acosArg mitteleuropa (sonnendeklination 80) ∧
    acosArg mitteleuropa (sonnendeklination 80) ≤ -0.021 := by
  obtain ⟨hD1, hD2⟩ := sonnendeklination_80_bounds
  obtain ⟨hc1, hc2⟩ := cos_b_mitteleuropa_bounds
  obtain ⟨hs1, hs2⟩ := sin_b_mitteleuropa_bounds
  have hp1 := Real.pi_gt_d6
  have hp2 := Real.pi_lt_d6
  -- the horizon angle
  obtain ⟨ha1, ha2⟩ := sin_small_bounds (Real.pi / 216) (by positivity)
    (by norm_num at hp2 ⊢; linarith)
  have hacube : (Real.pi / 216) ^ 3 ≤ (0.01455 : ℝ) ^ 3 :=
    pow_le_pow_left₀ (by positivity) (by norm_num at hp2 ⊢; linarith) 3
  -- the declination
  have hsD : Real.sin (sonnendeklination 80) = -Real.sin (-sonnendeklination 80) := by
    rw [Real.sin_neg, neg_neg]
  obtain ⟨_, hd2⟩ := sin_small_bounds (-sonnendeklination 80) (by norm_num at hD2 ⊢; linarith)
    (by norm_num at hD1 ⊢; linarith)
  have hd0 : 0 < Real.sin (-sonnendeklination 80) :=
    Real.sin_pos_of_pos_of_lt_pi (by norm_num at hD2 ⊢; linarith)
      (by norm_num at hD1 ⊢; linarith)
  have hcD1 := one_sub_le_cos_of_abs_le (sonnendeklination 80) 0.0006
    (by rw [abs_le]; constructor <;> norm_num at hD1 hD2 ⊢ <;> linarith)
  have hcD2 := Real.cos_le_one (sonnendeklination 80)
  have hprod1 : 0 ≤ Real.sin (_b mitteleuropa) * Real.sin (-sonnendeklination 80) :=
    mul_nonneg hs1 hd0.le
  have hprod2 : Real.sin (_b mitteleuropa) * Real.sin (-sonnendeklination 80) ≤ 0.0006 := by
    norm_num at hD1 ⊢
    nlinarith
  have hden1 : 0.6288 ≤ Real.cos (_b mitteleuropa) * Real.cos (sonnendeklination 80) := by
    norm_num at hcD1 hc1 ⊢
    nlinarith
  have hden2 : Real.cos (_b mitteleuropa) * Real.cos (sonnendeklination 80) ≤ 0.654 := by
    norm_num at hcD1 hc1 hc2 ⊢
    nlinarith
  have hden : 0 < Real.cos (_b mitteleuropa) * Real.cos (sonnendeklination 80) := by
    norm_num at hden1 ⊢
    linarith
  refine ⟨hden, ?_, ?_⟩
  · unfold acosArg
    rw [le_div_iff₀ hden, sin_h_eq, hsD]
    norm_num at ha1 ha2 hacube hprod1 hprod2 hden1 hden2 hp1 hp2 ⊢
    linarith
  · unfold acosArg
    rw [div_le_iff₀ hden, sin_h_eq, hsD]
    norm_num at ha1 ha2 hacube hprod1 hprod2 hden1 hden2 hp1 hp2 ⊢
    linarith

theorem zeitdifferenz_80_bounds :
    ∃ H, zeitdifferenz mitteleuropa (sonnendeklination 80) = some H ∧ 6.08 ≤ H ∧ H ≤ 6.0891 := by
  obtain ⟨hden, hx1, hx2⟩ := acosArg_80_bounds
  have hp1 := Real.pi_gt_d6
  have hp2 := Real.pi_lt_d6
  have hxI : acosArg mitteleuropa (sonnendeklination 80) ∈ Set.Icc (-1 : ℝ) 1 := by
    constructor <;> norm_num at hx1 hx2 ⊢ <;> linarith
  obtain ⟨_, hs21⟩ := sin_small_bounds 0.021 (by norm_num) (by norm_num)
  obtain ⟨hs23, _⟩ := sin_small_bounds 0.0233 (by norm_num) (by norm_num)
  have ht2 : Real.arcsin (acosArg mitteleuropa (sonnendeklination 80)) ≤ -0.021 := by
    rw [Real.arcsin_le_iff_le_sin hxI
      ⟨by norm_num at hp1 ⊢; linarith, by norm_num at hp1 ⊢; linarith⟩, Real.sin_neg]
    norm_num at hs21 hx2 ⊢
    linarith
  have ht1 : -0.0233 ≤ Real.arcsin (acosArg mitteleuropa (sonnendeklination 80)) := by
    rw [Real.le_arcsin_iff_sin_le
      ⟨by norm_num at hp1 ⊢; linarith, by norm_num at hp1 ⊢; linarith⟩ hxI, Real.sin_neg]
    norm_num at hs23 hx1 ⊢
    linarith
  refine ⟨_, zeitdifferenz_eq_some mitteleuropa _ hden.ne' hxI.1 hxI.2, ?_, ?_⟩
  · unfold PI
    rw [le_div_iff₀ Real.pi_pos, Real.arccos_eq_pi_div_two_sub_arcsin]
    norm_num at ht2 hp1 hp2 ⊢
    linarith
  · unfold PI
    rw [div_le_iff₀ Real.pi_pos, Real.arccos_eq_pi_div_two_sub_arcsin]
    norm_num at ht1 hp1 hp2 ⊢
    linarith

/-- The values of the reference scenario, to the accuracy the claims on it need. -/
theorem scenario_80_values :
    ∃ H r s, zeitdifferenz mitteleuropa (sonnendeklination 80) = some H ∧
      sunrise mitteleuropa 80 false = some r ∧ sunset mitteleuropa 80 false = some s ∧
      6.08 ≤ H ∧ H ≤ 6.0891 ∧ 6.364 ≤ r ∧ r ≤ 6.374 ∧ 18.533 ≤ s ∧ s ≤ 18.543 := by
  obtain ⟨H, hH, h1, h2⟩ := zeitdifferenz_80_bounds
  obtain ⟨hr, hs⟩ := sunrise_sunset_of_zeitdifferenz mitteleuropa 80 H false hH
  obtain ⟨g1, g2⟩ := zeitgleichung_80_bounds
  refine ⟨H, _, _, hH, hr, hs, h1, h2, ?_, ?_, ?_, ?_⟩ <;>
    simp only [zone, mitteleuropa] <;> norm_num at h1 h2 g1 g2 ⊢ <;> linarith

/-- C9, as stated, fails: with `BREITE = 50`, `LAENGE = 10`, day 80 and no daylight
saving, sunrise, sunset and the half-day length are all defined but farther than 0.05
from the reference values 6.45, 18.45 and 6.0 (they are about 6.37, 18.54 and 6.08). -/
theorem scenario_80_misses_reference :
    ∃ H r s, zeitdifferenz mitteleuropa (sonnendeklination 80) = some H ∧
      sunrise mitteleuropa 80 false = some r ∧ sunset mitteleuropa 80 false = some s ∧
      ¬ (|r - 6.45| ≤ 0.05) ∧ ¬ (|s - 18.45| ≤ 0.05) ∧ ¬ (|H - 6.0| ≤ 0.05) := by
  obtain ⟨H, r, s, hH, hr, hs, h1, h2, r1, r2, s1, s2⟩ := scenario_80_values
  refine ⟨H, r, s, hH, hr, hs, ?_, ?_, ?_⟩
  · rw [abs_le, not_and_or]
    left
    norm_num at r2 ⊢
    linarith
  · rw [abs_le, not_and_or]
    right
    norm_num at s1 ⊢
    linarith
  · rw [abs_le, not_and_or]
    right
    norm_num at h1 ⊢
    linarith

/-- C9, amended: with `BREITE = 50`, `LAENGE = 10`, day 80 and no daylight saving, sunrise,
sunset and the half-day length are defined and within 0.1 hour of 6.45, 18.45 and 6.0;
the declination is within 0.001 of 0 and the equation of time within 0.01 of -0.12. -/
theorem scenario_80_within_tenth :
    ∃ H r s, zeitdifferenz mitteleuropa (sonnendeklination 80) = some H ∧
      sunrise mitteleuropa 80 false = some r ∧ sunset mitteleuropa 80 false = some s ∧
      |r - 6.45| ≤ 0.1 ∧ |s - 18.45| ≤ 0.1 ∧ |H - 6.0| ≤ 0.1 ∧
      |sonnendeklination 80| ≤ 0.001 ∧ |zeitgleichung 80 - (-0.12)| ≤ 0.01 := by
  obtain ⟨H, r, s, hH, hr, hs, h1, h2, r1, r2, s1, s2⟩ := scenario_80_values
  obtain ⟨d1, d2⟩ := sonnendeklination_80_bounds
  obtain ⟨g1, g2⟩ := zeitgleichung_80_bounds
  refine ⟨H, r, s, hH, hr, hs, ?_, ?_, ?_, ?_, ?_⟩ <;> rw [abs_le] <;>
    constructor <;> norm_num at h1 h2 r1 r2 s1 s2 d1 d2 g1 g2 ⊢ <;> linarith

/-! ## Latitudes up to 65 degrees: the times are always defined -/

theorem sum_lt_of_abs_le (c : Config) (hB : |c.BREITE| ≤ 65) (D : ℝ)
    (hD : |D| ≤ 0.409526325277017) :
    |_b c| + |D| < Real.pi / 2 - Real.pi / 216 := by
  have h1 := abs_b_le c 65 hB
  have h3 := Real.pi_gt_d2
  norm_num at hD h3 ⊢
  linarith

/-- C11: for every latitude with `|BREITE| ≤ 65` and every real `T` the divisor is positive
and the arccosine argument for `decl = sonnendeklination(T)` lies strictly inside
`(-1, 1)`; hence `zeitdifferenz`, `sunrise` and `sunset` are defined (never NaN) and
`sunrise(T, f) < sunset(T, f)`. -/
theorem defined_up_to_65_degrees (c : Config) (hB : |c.BREITE| ≤ 65) (T : ℝ) (isDST : Bool) :
    0 < Real.cos (_b c) * Real.cos (sonnendeklination T) ∧
    -1 < acosArg c (sonnendeklination T) ∧ acosArg c (sonnendeklination T) < 1 ∧
    ∃ H r s, zeitdifferenz c (sonnendeklination T) = some H ∧
      sunrise c T isDST = some r ∧ sunset c T isDST = some s ∧ r < s := by
  obtain ⟨hden, hlo, hhi⟩ := acosArg_mem_Ioo c (sonnendeklination T)
    (sum_lt_of_abs_le c hB _ (abs_sonnendeklination_le T))
  obtain ⟨H, hH, hpos, _⟩ := zeitdifferenz_defined_of_breite_le_65 c hB T
  obtain ⟨hr, hs⟩ := sunrise_sunset_of_zeitdifferenz c T H isDST hH
  exact ⟨hden, hlo, hhi, H, _, _, hH, hr, hs, by linarith⟩

/-- At the edge of the range, `BREITE = 65`, on day 172 with daylight saving. -/
theorem defined_up_to_65_degrees_witness :
    |(65 : ℝ)| ≤ 65 ∧
    0 < Real.cos (_b ⟨65, 10⟩) * Real.cos (sonnendeklination 172) ∧
    -1 < acosArg ⟨65, 10⟩ (sonnendeklination 172) ∧
    acosArg ⟨65, 10⟩ (sonnendeklination 172) < 1 ∧
    ∃ H r s, zeitdifferenz ⟨65, 10⟩ (sonnendeklination 172) = some H ∧
      sunrise ⟨65, 10⟩ 172 true = some r ∧ sunset ⟨65, 10⟩ 172 true = some s ∧ r < s :=
  ⟨by norm_num, defined_up_to_65_degrees ⟨65, 10⟩ (by norm_num) 172 true⟩

/-! ## The half-day length lies between 0 and 12 hours -/

/-- C14: for every real `T`,
`|zeitgleichung(T)| ≤ 0.170869921174742 + 0.129890681040717 = 0.300760602215459`, the sum
of the two harmonic amplitudes; in minutes the correction never exceeds 18.05. -/
theorem abs_zeitgleichung_le_amplitudes (T : ℝ) :
    |zeitgleichung T| ≤ 0.170869921174742 + 0.129890681040717 ∧
    (0.170869921174742 + 0.129890681040717 : ℝ) = 0.300760602215459 ∧
    60 * |zeitgleichung T| ≤ 18.05 := by
  have h := abs_zeitgleichung_le_sum T
  refine ⟨h, by norm_num, ?_⟩
  norm_num at h ⊢
  linarith

/-! ## A larger declination gives a longer day in the north -/

theorem abs_roundEven_sub_le (y : ℝ) : |(roundEven y : ℝ) - y| ≤ 1 / 2 := by
  have h0 := Int.fract_nonneg y
  have h1 := Int.fract_lt_one y
  have hy : y = ⌊y⌋ + Int.fract y := (Int.floor_add_fract y).symm
  unfold roundEven
  rw [abs_le]
  split_ifs with ha hb hc
  · constructor <;> linarith
  · push_cast; constructor <;> linarith
  · constructor <;> linarith
  · push_cast; constructor <;> linarith

theorem roundEven_eq_of_abs_lt (y : ℝ) (n : ℤ) (h : |y - n| < 1 / 2) : roundEven y = n := by
  obtain ⟨hlo, hhi⟩ := abs_lt.mp h
  unfold roundEven
  by_cases hn : (n : ℝ) ≤ y
  · have hfl : ⌊y⌋ = n := by
      rw [Int.floor_eq_iff]
      constructor <;> linarith
    have hfr : Int.fract y < 1 / 2 := by
      rw [Int.fract, hfl]; linarith
    rw [if_pos hfr, hfl]
  · push_neg at hn
    have hfl : ⌊y⌋ = n - 1 := by
      rw [Int.floor_eq_iff]
      push_cast
      constructor <;> linarith
    have hfr : 1 / 2 < Int.fract y := by
      rw [Int.fract, hfl]; push_cast; linarith
    rw [if_neg (by linarith), if_pos hfr, hfl]
    ring

theorem exponent_eq (x : ℝ) (e : ℤ) (he : -126 ≤ e) (h1 : (2 : ℝ) ^ e ≤ |x|)
    (h2 : |x| < (2 : ℝ) ^ (e + 1)) : exponent x = e := by
  have hpos : 0 < |x| := lt_of_lt_of_le (by positivity) h1
  have hx : x ≠ 0 := abs_pos.mp hpos
  have hlog : Int.log 2 |x| = e := by
    apply le_antisymm
    · have := (Int.lt_zpow_iff_log_lt (b := 2) (by norm_num) hpos (x := e + 1)).mp
        (by exact_mod_cast h2)
      omega
    · exact (Int.zpow_le_iff_le_log (b := 2) (by norm_num) hpos).mp (by exact_mod_cast h1)
  unfold exponent
  rw [if_neg hx, hlog]
  exact max_eq_left he

theorem abs_f32_sub_le (x : ℝ) : |f32 x - x| ≤ (2 : ℝ) ^ (exponent x - 23) / 2 := by
  have hu : (0 : ℝ) < (2 : ℝ) ^ (exponent x - 23) := by positivity
  have h := abs_roundEven_sub_le (x / (2 : ℝ) ^ (exponent x - 23))
  unfold f32
  have e : (roundEven (x / (2 : ℝ) ^ (exponent x - 23)) : ℝ) * (2 : ℝ) ^ (exponent x - 23) - x
      = ((roundEven (x / (2 : ℝ) ^ (exponent x - 23)) : ℝ) - x / (2 : ℝ) ^ (exponent x - 23))
        * (2 : ℝ) ^ (exponent x - 23) := by
    field_simp
  rw [e, abs_mul, abs_of_pos hu]
  nlinarith

/-- In the binade of exponent `e` the rounded value is the unique grid point within half a
grid step. -/
theorem f32_eq_of_near (x : ℝ) (e n : ℤ) (he : -126 ≤ e) (h1 : (2 : ℝ) ^ e ≤ |x|)
    (h2 : |x| < (2 : ℝ) ^ (e + 1))
    (hn : |x - n * (2 : ℝ) ^ (e - 23)| < (2 : ℝ) ^ (e - 23) / 2) :
    f32 x = n * (2 : ℝ) ^ (e - 23) := by
  have hu : (0 : ℝ) < (2 : ℝ) ^ (e - 23) := by positivity
  unfold f32
  rw [exponent_eq x e he h1 h2]
  have : roundEven (x / (2 : ℝ) ^ (e - 23)) = n := by
    apply roundEven_eq_of_abs_lt
    have : x / (2 : ℝ) ^ (e - 23) - n = (x - n * (2 : ℝ) ^ (e - 23)) / (2 : ℝ) ^ (e - 23) := by
      field_simp
      ring
    rw [this, abs_div, abs_of_pos hu, div_lt_iff₀ hu]
    linarith
  rw [this]

/-- In the binade of exponent `e` the rounded value is a multiple of `2^(e-23)` within
half a grid step of the argument. -/
theorem f32_grid (x : ℝ) (e : ℤ) (he : -126 ≤ e) (h1 : (2 : ℝ) ^ e ≤ |x|)
    (h2 : |x| < (2 : ℝ) ^ (e + 1)) :
    ∃ n : ℤ, f32 x = n * (2 : ℝ) ^ (e - 23) ∧ |f32 x - x| ≤ (2 : ℝ) ^ (e - 23) / 2 := by
  have hexp := exponent_eq x e he h1 h2
  have herr := abs_f32_sub_le x
  rw [hexp] at herr
  refine ⟨roundEven (x / (2 : ℝ) ^ (e - 23)), ?_, herr⟩
  unfold f32
  rw [hexp]

/-- The relative error of rounding is at most `2^-24`, up to the subnormal grid. -/
theorem abs_f32_sub_le_rel (x : ℝ) :
    |f32 x - x| ≤ |x| / 16777216 + (2 : ℝ) ^ (-150 : ℤ) := by
  have herr := abs_f32_sub_le x
  have h150 : (0 : ℝ) < (2 : ℝ) ^ (-150 : ℤ) := by positivity
  by_cases hx : x = 0
  · have hz : f32 0 = 0 := by
      unfold f32
      have : roundEven (0 / (2 : ℝ) ^ (exponent 0 - 23)) = 0 := by
        apply roundEven_eq_of_abs_lt
        norm_num
      rw [this]
      simp
    rw [hx, hz]
    simp only [sub_self, abs_zero, zero_div, zero_add]
    exact h150.le
  · have hpos : 0 < |x| := abs_pos.mpr hx
    have hlog := Int.zpow_log_le_self (b := 2) (by norm_num) hpos
    have hsplit : (2 : ℝ) ^ (exponent x - 23) / 2
        ≤ |x| / 16777216 + (2 : ℝ) ^ (-150 : ℤ) := by
      unfold exponent
      rw [if_neg hx]
      rcases le_total (Int.log 2 |x|) (-126) with hle | hge
      · rw [max_eq_right hle]
        have : (2 : ℝ) ^ ((-126 : ℤ) - 23) / 2 = (2 : ℝ) ^ (-150 : ℤ) := by
          rw [show ((-126 : ℤ) - 23) = -150 + 1 by norm_num, zpow_add₀ (by norm_num)]
          norm_num
        rw [this]
        have : 0 ≤ |x| / 16777216 := by positivity
        linarith
      · rw [max_eq_left hge]
        have : (2 : ℝ) ^ (Int.log 2 |x| - 23) / 2 = (2 : ℝ) ^ (Int.log 2 |x|) / 16777216 := by
          rw [zpow_sub₀ (by norm_num)]
          norm_num
          ring
        rw [this]
        have h2 : (2 : ℝ) ^ (Int.log 2 |x|) ≤ |x| := by exact_mod_cast hlog
        have : (2 : ℝ) ^ (Int.log 2 |x|) / 16777216 ≤ |x| / 16777216 :=
          div_le_div_of_nonneg_right h2 (by norm_num)
        linarith
    exact herr.trans hsplit

/-! ## The binary32 constants of the program -/

theorem rad32_eq : Binary32._rad = 9370165 / 536870912 := by
  have hp1 := Real.pi_gt_d20
  have hp2 := Real.pi_lt_d20
  have hpos : (0 : ℝ) < Real.pi / 180.0 := by positivity
  unfold Binary32._rad PI
  rw [f32_eq_of_near (Real.pi / 180.0) (-6) 9370165 (by norm_num)
    (by rw [abs_of_pos hpos]; norm_num at hp1 ⊢; linarith)
    (by rw [abs_of_pos hpos]; norm_num at hp2 ⊢; linarith)
    (by rw [abs_lt]; constructor <;> norm_num at hp1 hp2 ⊢ <;> linarith)]
  norm_num

theorem h32_eq : Binary32._h = -(7808471 / 536870912) := by
  unfold Binary32._h
  rw [rad32_eq]
  rw [f32_eq_of_near (-(50.0 / 60.0) * (9370165 / 536870912)) (-7) (-15616942) (by norm_num)
    (by rw [abs_of_neg (by norm_num)]; norm_num)
    (by rw [abs_of_neg (by norm_num)]; norm_num)
    (by rw [abs_lt]; constructor <;> norm_num)]
  norm_num

theorem b32_50 (L : ℝ) : Binary32._b ⟨50, L⟩ = 14640883 / 16777216 := by
  unfold Binary32._b
  rw [rad32_eq]
  rw [f32_eq_of_near (50 * (9370165 / 536870912)) (-1) 14640883 (by norm_num)
    (by rw [abs_of_pos (by norm_num)]; norm_num)
    (by rw [abs_of_pos (by norm_num)]; norm_num)
    (by rw [abs_lt]; constructor <;> norm_num)]
  norm_num

theorem b32_near_pole (L : ℝ) : Binary32._b ⟨89.9999998, L⟩ = 13176795 / 8388608 := by
  unfold Binary32._b
  rw [rad32_eq]
  rw [f32_eq_of_near (89.9999998 * (9370165 / 536870912)) 0 13176795 (by norm_num)
    (by rw [abs_of_pos (by norm_num)]; norm_num)
    (by rw [abs_of_pos (by norm_num)]; norm_num)
    (by rw [abs_lt]; constructor <;> norm_num)]
  norm_num

/-! ## The divisor in binary32 -/

theorem abs_sonnendeklination32_le (T : ℝ) : |Binary32.sonnendeklination T| ≤ 0.41 := by
  unfold Binary32.sonnendeklination
  have hy : |0.409526325277017 * Real.sin (0.0169060504029192 * (T - 80.0856919827619))|
      ≤ 0.409526325277017 := abs_sonnendeklination_le T
  have herr := abs_f32_sub_le_rel
    (0.409526325277017 * Real.sin (0.0169060504029192 * (T - 80.0856919827619)))
  have h3 := abs_sub_abs_le_abs_sub
    (f32 (0.409526325277017 * Real.sin (0.0169060504029192 * (T - 80.0856919827619))))
    (0.409526325277017 * Real.sin (0.0169060504029192 * (T - 80.0856919827619)))
  norm_num at hy herr h3 ⊢
  linarith

theorem cos_sonnendeklination32_pos (T : ℝ) : 0 < Real.cos (Binary32.sonnendeklination T) := by
  have h := abs_le.mp (abs_sonnendeklination32_le T)
  have hp := Real.pi_gt_three
  exact Real.cos_pos_of_mem_Ioo ⟨by norm_num at h ⊢; linarith [h.1],
    by norm_num at h ⊢; linarith [h.2]⟩

/-- C13, as stated, fails on the binary32 code: at `BREITE = 89.9999998`, strictly
between -90 and 90, the float `_b` is `13176795/2^23`, which exceeds `pi/2`, so the divisor
`cos(_b)*cos(sonnendeklination(80))` is negative. -/
theorem divisor_negative_near_pole :
    (-90 : ℝ) < 89.9999998 ∧ (89.9999998 : ℝ) < 90 ∧
    Binary32.divisor ⟨89.9999998, 0⟩ (Binary32.sonnendeklination 80) < 0 := by
  refine ⟨by norm_num, by norm_num, ?_⟩
  have hp1 := Real.pi_gt_d20
  have hp2 := Real.pi_lt_d20
  unfold Binary32.divisor
  rw [b32_near_pole]
  apply mul_neg_of_neg_of_pos _ (cos_sonnendeklination32_pos 80)
  apply Real.cos_neg_of_pi_div_two_lt_of_lt
  · norm_num at hp2 ⊢; linarith
  · norm_num at hp1 ⊢; linarith

theorem abs_b32_lt_of_le (c : Config) (hB : |c.BREITE| ≤ 89.9999) :
    |Binary32._b c| < Real.pi / 2 := by
  have hp1 := Real.pi_gt_d6
  unfold Binary32._b
  rw [rad32_eq]
  have hx : |c.BREITE * (9370165 / 536870912)| ≤ 89.9999 * (9370165 / 536870912) := by
    rw [abs_mul, abs_of_pos (by norm_num : (0 : ℝ) < 9370165 / 536870912)]
    exact mul_le_mul_of_nonneg_right hB (by norm_num)
  have herr := abs_f32_sub_le_rel (c.BREITE * (9370165 / 536870912))
  have h3 := abs_sub_abs_le_abs_sub (f32 (c.BREITE * (9370165 / 536870912)))
    (c.BREITE * (9370165 / 536870912))
  norm_num at hx herr h3 hp1 ⊢
  linarith

/-- C13, amended: over exact real arithmetic the divisor `cos(b)*cos(sonnendeklination(T))`
is strictly positive for every latitude strictly between -90 and 90 degrees and every real
`T`, because `|sonnendeklination(T)| ≤ 0.409526325277017 < pi/2`; in the binary32 code it
is strictly positive for every latitude with `|BREITE| ≤ 89.9999`. -/
theorem divisor_pos_exact_and_binary32 (c : Config) (T : ℝ) :
    (-90 < c.BREITE → c.BREITE < 90 →
      0 < Real.cos (_b c) * Real.cos (sonnendeklination T)) ∧
    (|c.BREITE| ≤ 89.9999 → 0 < Binary32.divisor c (Binary32.sonnendeklination T)) ∧
    |sonnendeklination T| ≤ 0.409526325277017 ∧ (0.409526325277017 : ℝ) < Real.pi / 2 := by
  have hp := Real.pi_gt_three
  have hD := abs_sonnendeklination_le T
  have hlt : (0.409526325277017 : ℝ) < Real.pi / 2 := by
    norm_num
    linarith
  refine ⟨?_, ?_, hD, hlt⟩
  · intro h1 h2
    refine divisor_pos_of_abs_lt _ _ ?_ (lt_of_le_of_lt hD hlt)
    unfold _b _rad PI
    rw [abs_lt]
    constructor <;> norm_num <;> nlinarith
  · intro hB
    have hb := abs_lt.mp (abs_b32_lt_of_le c hB)
    unfold Binary32.divisor
    exact mul_pos (Real.cos_pos_of_mem_Ioo ⟨by linarith [hb.1], hb.2⟩)
      (cos_sonnendeklination32_pos T)

/-- At `BREITE = 89`, day 0: both hypotheses hold and both divisors are positive. -/
theorem divisor_pos_exact_and_binary32_witness :
    0 < Real.cos (_b ⟨89, 0⟩) * Real.cos (sonnendeklination 0) ∧
    0 < Binary32.divisor ⟨89, 0⟩ (Binary32.sonnendeklination 0) :=
  ⟨(divisor_pos_exact_and_binary32 ⟨89, 0⟩ 0).1 (by norm_num) (by norm_num),
    (divisor_pos_exact_and_binary32 ⟨89, 0⟩ 0).2.1 (by norm_num)⟩

/-! ## The reference scenario in binary32: latitude 50, day 80 -/

theorem half_day_of_arg (x : ℝ) (hx1 : -0.0232 ≤ x) (hx2 : x ≤ -0.021) :
    6.08 ≤ 12.0 * Real.arccos x / PI ∧ 12.0 * Real.arccos x / PI ≤ 6.0891 := by
  have hp1 := Real.pi_gt_d6
  have hp2 := Real.pi_lt_d6
  have hxI : x ∈ Set.Icc (-1 : ℝ) 1 := by
    constructor <;> norm_num at hx1 hx2 ⊢ <;> linarith
  obtain ⟨_, hs21⟩ := sin_small_bounds 0.021 (by norm_num) (by norm_num)
  obtain ⟨hs23, _⟩ := sin_small_bounds 0.0233 (by norm_num) (by norm_num)
  have ht2 : Real.arcsin x ≤ -0.021 := by
    rw [Real.arcsin_le_iff_le_sin hxI
      ⟨by norm_num at hp1 ⊢; linarith, by norm_num at hp1 ⊢; linarith⟩, Real.sin_neg]
    norm_num at hs21 hx2 ⊢
    linarith
  have ht1 : -0.0233 ≤ Real.arcsin x := by
    rw [Real.le_arcsin_iff_sin_le
      ⟨by norm_num at hp1 ⊢; linarith, by norm_num at hp1 ⊢; linarith⟩ hxI, Real.sin_neg]
    norm_num at hs23 hx1 ⊢
    linarith
  constructor
  · unfold PI
    rw [le_div_iff₀ Real.pi_pos, Real.arccos_eq_pi_div_two_sub_arcsin]
    norm_num at ht2 hp1 hp2 ⊢
    linarith
  · unfold PI
    rw [div_le_iff₀ Real.pi_pos, Real.arccos_eq_pi_div_two_sub_arcsin]
    norm_num at ht1 hp1 hp2 ⊢
    linarith

theorem sonnendeklination32_80_bounds :
    -0.00061 ≤ Binary32.sonnendeklination 80 ∧ Binary32.sonnendeklination 80 ≤ -0.00058 := by
  obtain ⟨h1, h2⟩ := sonnendeklination_80_bounds
  have he : Binary32.sonnendeklination 80 = f32 (sonnendeklination 80) := rfl
  obtain ⟨n, _, herr⟩ := f32_grid (sonnendeklination 80) (-11) (by norm_num)
    (by rw [abs_of_neg (by norm_num at h2 ⊢; linarith)]; norm_num at h2 ⊢; linarith)
    (by rw [abs_of_neg (by norm_num at h2 ⊢; linarith)]; norm_num at h1 ⊢; linarith)
  rw [he]
  obtain ⟨e1, e2⟩ := abs_le.mp herr
  constructor <;> norm_num at h1 h2 e1 e2 ⊢ <;> linarith

theorem zeitgleichung32_80 :
    ∃ nz : ℤ, Binary32.zeitgleichung 80 = nz / 134217728 ∧
      -0.12041 ≤ Binary32.zeitgleichung 80 ∧ Binary32.zeitgleichung 80 ≤ -0.12019 := by
  obtain ⟨h1, h2⟩ := zeitgleichung_80_bounds
  have he : Binary32.zeitgleichung 80 = f32 (zeitgleichung 80) := rfl
  obtain ⟨n, hn, herr⟩ := f32_grid (zeitgleichung 80) (-4) (by norm_num)
    (by rw [abs_of_neg (by norm_num at h2 ⊢; linarith)]; norm_num at h2 ⊢; linarith)
    (by rw [abs_of_neg (by norm_num at h2 ⊢; linarith)]; norm_num at h1 ⊢; linarith)
  rw [he]
  obtain ⟨e1, e2⟩ := abs_le.mp herr
  refine ⟨n, ?_, ?_, ?_⟩
  · rw [hn]; norm_num; ring
  · norm_num at h1 e1 ⊢; linarith
  · norm_num at h2 e2 ⊢; linarith

theorem cos_b32_50_bounds (L : ℝ) :
    0.6289 ≤ Real.cos (Binary32._b ⟨50, L⟩) ∧ Real.cos (Binary32._b ⟨50, L⟩) ≤ 0.654 := by
  have hp1 := Real.pi_gt_d6
  have hp2 := Real.pi_lt_d6
  rw [b32_50]
  have e : Real.cos (14640883 / 16777216)
      = Real.sin (Real.pi / 2 - 14640883 / 16777216) := by
    rw [Real.sin_pi_div_two_sub]
  obtain ⟨h1, h2⟩ := sin_bounds_of_mem (Real.pi / 2 - 14640883 / 16777216) 0.6981 0.6982
    (by norm_num) (by norm_num at hp1 ⊢; linarith) (by norm_num at hp2 ⊢; linarith)
    (by norm_num)
  rw [e]
  constructor <;> norm_num at h1 h2 ⊢ <;> linarith

theorem sin_b32_50_bounds (L : ℝ) :
    0 ≤ Real.sin (Binary32._b ⟨50, L⟩) ∧ Real.sin (Binary32._b ⟨50, L⟩) ≤ 1 := by
  refine ⟨?_, Real.sin_le_one _⟩
  rw [b32_50]
  apply Real.sin_nonneg_of_nonneg_of_le_pi
  · norm_num
  · have := Real.pi_gt_three
    norm_num
    linarith

theorem acosArg32_bounds (L d : ℝ) (hD1 : -0.00061 ≤ d) (hD2 : d ≤ -0.00058) :
    0 < Binary32.divisor ⟨50, L⟩ d ∧
    -0.0232 ≤ (Real.sin Binary32._h - Real.sin (Binary32._b ⟨50, L⟩) * Real.sin d)
        / Binary32.divisor ⟨50, L⟩ d ∧
    (Real.sin Binary32._h - Real.sin (Binary32._b ⟨50, L⟩) * Real.sin d)
        / Binary32.divisor ⟨50, L⟩ d ≤ -0.021 := by
  obtain ⟨hc1, hc2⟩ := cos_b32_50_bounds L
  obtain ⟨hs1, hs2⟩ := sin_b32_50_bounds L
  -- the horizon angle
  have hsh : Real.sin Binary32._h = -Real.sin (7808471 / 536870912) := by
    rw [h32_eq, Real.sin_neg]
  obtain ⟨ha1, ha2⟩ := sin_small_bounds (7808471 / 536870912) (by norm_num) (by norm_num)
  -- the declination
  have hsD : Real.sin d = -Real.sin (-d) := by
    rw [Real.sin_neg, neg_neg]
  obtain ⟨_, hd2⟩ := sin_small_bounds (-d) (by norm_num at hD2 ⊢; linarith)
    (by norm_num at hD1 ⊢; linarith)
  have hd0 : 0 < Real.sin (-d) :=
    Real.sin_pos_of_pos_of_lt_pi (by norm_num at hD2 ⊢; linarith)
      (by have := Real.pi_gt_three; norm_num at hD1 ⊢; linarith)
  have hcD1 := one_sub_le_cos_of_abs_le d 0.00061
    (by rw [abs_le]; constructor <;> norm_num at hD1 hD2 ⊢ <;> linarith)
  have hcD2 := Real.cos_le_one d
  have hprod1 : 0 ≤ Real.sin (Binary32._b ⟨50, L⟩) * Real.sin (-d) :=
    mul_nonneg hs1 hd0.le
  have hprod2 : Real.sin (Binary32._b ⟨50, L⟩) * Real.sin (-d) ≤ 0.00061 := by
    norm_num at hD1 ⊢
    nlinarith
  have hden1 : 0.6288 ≤ Real.cos (Binary32._b ⟨50, L⟩) * Real.cos d := by
    norm_num at hcD1 hc1 ⊢
    nlinarith
  have hden2 : Real.cos (Binary32._b ⟨50, L⟩) * Real.cos d ≤ 0.654 := by
    norm_num at hcD1 hc1 hc2 ⊢
    nlinarith
  have hden : 0 < Real.cos (Binary32._b ⟨50, L⟩) * Real.cos d := by
    norm_num at hden1 ⊢
    linarith
  unfold Binary32.divisor
  refine ⟨hden, ?_, ?_⟩
  · rw [le_div_iff₀ hden, hsh, hsD]
    norm_num at ha1 ha2 hprod1 hprod2 hden1 hden2 ⊢
    linarith
  · rw [div_le_iff₀ hden, hsh, hsD]
    norm_num at ha1 ha2 hprod1 hprod2 hden1 hden2 ⊢
    linarith

theorem zeitdifferenz32_eq_some (c : Config) (D : ℝ)
    (hden : Binary32.divisor c D ≠ 0)
    (hlo : -1 ≤ (Real.sin Binary32._h - Real.sin (Binary32._b c) * Real.sin D)
      / Binary32.divisor c D)
    (hhi : (Real.sin Binary32._h - Real.sin (Binary32._b c) * Real.sin D)
      / Binary32.divisor c D ≤ 1) :
    Binary32.zeitdifferenz c D = some (f32 (12.0 * Real.arccos
      ((Real.sin Binary32._h - Real.sin (Binary32._b c) * Real.sin D)
        / Binary32.divisor c D) / PI)) := by
  unfold Binary32.zeitdifferenz quotient acos
  rw [if_neg hden]
  simp only [Option.some_bind]
  rw [if_pos ⟨hlo, hhi⟩]
  rfl

theorem aufgang32_grid (nH : ℤ) (z : ℝ) (hHlo : (6.0799 : ℝ) ≤ (nH : ℝ) / 2097152)
    (hHhi : (nH : ℝ) / 2097152 ≤ 6.0892) (hz1 : -0.12041 ≤ z) (hz2 : z ≤ -0.12019) :
    ∃ na : ℤ, f32 (f32 (12 - (nH : ℝ) / 2097152) - z) = (na : ℝ) / 2097152 ∧
      (6.03 : ℝ) ≤ (na : ℝ) / 2097152 ∧ (na : ℝ) / 2097152 ≤ 6.05 := by
  -- `12 - H` is a float: the first operation of `_aufgang` does not round
  have h12a : f32 (12 - (nH : ℝ) / 2097152) = 12 - (nH : ℝ) / 2097152 := by
    rw [f32_eq_of_near (12 - (nH : ℝ) / 2097152) 2 (25165824 - nH) (by norm_num)
      (by rw [abs_of_pos (by norm_num at hHhi ⊢; linarith)]
          norm_num at hHhi ⊢; linarith)
      (by rw [abs_of_pos (by norm_num at hHhi ⊢; linarith)]
          norm_num at hHlo ⊢; linarith)
      (by
        have e : 12 - (nH : ℝ) / 2097152
            - ((25165824 - nH : ℤ) : ℝ) * (2 : ℝ) ^ ((2 : ℤ) - 23) = 0 := by
          push_cast; norm_num; ring
        rw [e]; norm_num)]
    push_cast
    norm_num
    ring
  rw [h12a]
  obtain ⟨na, hna, herra⟩ := f32_grid (12 - (nH : ℝ) / 2097152 - z) 2 (by norm_num)
    (by rw [abs_of_pos (by norm_num at hHhi hz1 hz2 ⊢; linarith)]
        norm_num at hHhi hz1 hz2 ⊢; linarith)
    (by rw [abs_of_pos (by norm_num at hHhi hz1 hz2 ⊢; linarith)]
        norm_num at hHlo hz1 hz2 ⊢; linarith)
  obtain ⟨ea1, ea2⟩ := abs_le.mp herra
  have haval : f32 (12 - (nH : ℝ) / 2097152 - z) = (na : ℝ) / 2097152 := by
    rw [hna]; norm_num; ring
  rw [haval] at ea1 ea2
  refine ⟨na, haval, ?_, ?_⟩
  · norm_num at hHhi hz1 hz2 ea1 ea2 ⊢; linarith
  · norm_num at hHlo hz1 hz2 ea1 ea2 ⊢; linarith

theorem untergang32_grid (H z : ℝ) (hHlo : (6.0799 : ℝ) ≤ H) (hHhi : H ≤ 6.0892)
    (hz1 : -0.12041 ≤ z) (hz2 : z ≤ -0.12019) :
    ∃ nU : ℤ, f32 (f32 (12 + H) - z) = (nU : ℝ) / 524288 ∧
      (18.19 : ℝ) ≤ (nU : ℝ) / 524288 ∧ (nU : ℝ) / 524288 ≤ 18.22 := by
  -- `12 + H` is rounded to a multiple of `2^-19`
  obtain ⟨nS, _, herrS⟩ := f32_grid (12 + H) 4 (by norm_num)
    (by rw [abs_of_pos (by norm_num at hHlo ⊢; linarith)]
        norm_num at hHlo ⊢; linarith)
    (by rw [abs_of_pos (by norm_num at hHlo ⊢; linarith)]
        norm_num at hHhi ⊢; linarith)
  obtain ⟨eS1, eS2⟩ := abs_le.mp herrS
  generalize f32 (12 + H) = S at eS1 eS2
  have hS1 : (18.0798 : ℝ) ≤ S := by norm_num at hHlo eS1 ⊢; linarith
  have hS2 : S ≤ (18.0893 : ℝ) := by norm_num at hHhi eS2 ⊢; linarith
  obtain ⟨nU, hnU, herrU⟩ := f32_grid (S - z) 4 (by norm_num)
    (by rw [abs_of_pos (by norm_num at hS1 hz2 ⊢; linarith)]
        norm_num at hS1 hz2 ⊢; linarith)
    (by rw [abs_of_pos (by norm_num at hS1 hz2 ⊢; linarith)]
        norm_num at hS2 hz1 ⊢; linarith)
  obtain ⟨eU1, eU2⟩ := abs_le.mp herrU
  have hUval : f32 (S - z) = (nU : ℝ) / 524288 := by
    rw [hnU]; norm_num; ring
  rw [hUval] at eU1 eU2
  refine ⟨nU, hUval, ?_, ?_⟩
  · norm_num at hS1 hz1 hz2 eU1 eU2 ⊢; linarith
  · norm_num at hS2 hz1 hz2 eU1 eU2 ⊢; linarith

/-- The binary32 values of the scenario `BREITE = 50`, day 80, for any longitude: the
half-day length and `_aufgang` are multiples of `2^-21`, `_untergang` of `2^-19` and
`zeitgleichung` of `2^-27`, in the ranges given. -/
theorem scenario32 (L : ℝ) :
    ∃ nH nz na nU : ℤ,
      Binary32.zeitdifferenz ⟨50, L⟩ (Binary32.sonnendeklination 80)
        = some ((nH : ℝ) / 2097152) ∧
      Binary32.zeitgleichung 80 = (nz : ℝ) / 134217728 ∧
      Binary32._aufgang ⟨50, L⟩ 80 = some ((na : ℝ) / 2097152) ∧
      Binary32._untergang ⟨50, L⟩ 80 = some ((nU : ℝ) / 524288) ∧
      (6.03 : ℝ) ≤ (na : ℝ) / 2097152 ∧ (na : ℝ) / 2097152 ≤ 6.05 ∧
      (18.19 : ℝ) ≤ (nU : ℝ) / 524288 ∧ (nU : ℝ) / 524288 ≤ 18.22 := by
  obtain ⟨hd1, hd2⟩ := sonnendeklination32_80_bounds
  obtain ⟨hden, hx1, hx2⟩ := acosArg32_bounds L (Binary32.sonnendeklination 80) hd1 hd2
  obtain ⟨hH1, hH2⟩ := half_day_of_arg _ hx1 hx2
  have hz := zeitdifferenz32_eq_some ⟨50, L⟩ (Binary32.sonnendeklination 80) hden.ne'
    (le_trans (by norm_num) hx1) (le_trans hx2 (by norm_num))
  generalize 12.0 * Real.arccos
      ((Real.sin Binary32._h - Real.sin (Binary32._b ⟨50, L⟩)
          * Real.sin (Binary32.sonnendeklination 80))
        / Binary32.divisor ⟨50, L⟩ (Binary32.sonnendeklination 80)) / PI = y at hH1 hH2 hz
  obtain ⟨nH, hnH, herrH⟩ := f32_grid y 2 (by norm_num)
    (by rw [abs_of_pos (by norm_num at hH1 ⊢; linarith)]; norm_num at hH1 ⊢; linarith)
    (by rw [abs_of_pos (by norm_num at hH1 ⊢; linarith)]; norm_num at hH2 ⊢; linarith)
  obtain ⟨eH1, eH2⟩ := abs_le.mp herrH
  obtain ⟨nz, hnz, hz1, hz2⟩ := zeitgleichung32_80
  have hHval : f32 y = (nH : ℝ) / 2097152 := by
    rw [hnH]; norm_num; ring
  rw [hHval] at hz eH1 eH2
  have hHlo : (6.0799 : ℝ) ≤ (nH : ℝ) / 2097152 := by norm_num at hH1 eH1 ⊢; linarith
  have hHhi : (nH : ℝ) / 2097152 ≤ 6.0892 := by norm_num at hH2 eH2 ⊢; linarith
  obtain ⟨na, hna, ha1, ha2⟩ := aufgang32_grid nH (Binary32.zeitgleichung 80) hHlo hHhi hz1 hz2
  obtain ⟨nU, hnU, hU1, hU2⟩ :=
    untergang32_grid ((nH : ℝ) / 2097152) (Binary32.zeitgleichung 80) hHlo hHhi hz1 hz2
  refine ⟨nH, nz, na, nU, hz, hnz, ?_, ?_, ha1, ha2, hU1, hU2⟩
  · unfold Binary32._aufgang
    rw [hz, Option.map_some', hna]
  · unfold Binary32._untergang
    rw [hz, Option.map_some', hnU]

/-! ## Binary32 results that break the exact identities -/

/-- C2, as stated, fails on the binary32 code: at `BREITE = 50`, day 80, no daylight saving,
raising `LAENGE` from 80 to 95 lowers `sunrise` by `1 - 2^-24`, not by 1.0 (the result for
80 lies in `[1, 2)`, the one for 95 in `[0.5, 1)`, where the float grid is twice as fine). -/
theorem longitude_shift_not_one_binary32 :
    ∃ r0 r1, Binary32.sunrise ⟨50, 80⟩ 80 false = some r0 ∧
      Binary32.sunrise ⟨50, 80 + 15⟩ 80 false = some r1 ∧
      r0 - r1 = 16777215 / 16777216 ∧ r0 - r1 ≠ 1 := by
  obtain ⟨nH, nz, na, nU, _, _, ha, _, ha1, ha2, _, _⟩ := scenario32 80
  have hsame : Binary32._aufgang ⟨50, 80 + 15⟩ 80 = Binary32._aufgang ⟨50, 80⟩ 80 := rfl
  -- longitude 80: the exact value is a third of a grid step above a grid point
  have h0 : f32 ((na : ℝ) / 2097152 - 80 / 15.0 + ((zone false : ℤ) : ℝ))
      = (4 * na - 36350635 : ℤ) * (2 : ℝ) ^ ((0 : ℤ) - 23) := by
    apply f32_eq_of_near _ 0 _ (by norm_num)
    · rw [abs_of_pos (by simp only [zone]; norm_num at ha1 ⊢; linarith)]
      simp only [zone]; norm_num at ha1 ⊢; linarith
    · rw [abs_of_pos (by simp only [zone]; norm_num at ha1 ⊢; linarith)]
      simp only [zone]; norm_num at ha2 ⊢; linarith
    · have e : (na : ℝ) / 2097152 - 80 / 15.0 + ((zone false : ℤ) : ℝ)
          - ((4 * na - 36350635 : ℤ) : ℝ) * (2 : ℝ) ^ ((0 : ℤ) - 23) = 1 / 25165824 := by
        simp only [zone]; push_cast; norm_num; ring
      rw [e, abs_lt]; constructor <;> norm_num
  -- longitude 95: the exact value is a third of a grid step below a grid point
  have h1 : f32 ((na : ℝ) / 2097152 - (80 + 15) / 15.0 + ((zone false : ℤ) : ℝ))
      = (8 * na - 89478485 : ℤ) * (2 : ℝ) ^ ((-1 : ℤ) - 23) := by
    apply f32_eq_of_near _ (-1) _ (by norm_num)
    · rw [abs_of_pos (by simp only [zone]; norm_num at ha1 ⊢; linarith)]
      simp only [zone]; norm_num at ha1 ⊢; linarith
    · rw [abs_of_pos (by simp only [zone]; norm_num at ha1 ⊢; linarith)]
      simp only [zone]; norm_num at ha2 ⊢; linarith
    · have e : (na : ℝ) / 2097152 - (80 + 15) / 15.0 + ((zone false : ℤ) : ℝ)
          - ((8 * na - 89478485 : ℤ) : ℝ) * (2 : ℝ) ^ ((-1 : ℤ) - 23) = -(1 / 50331648) := by
        simp only [zone]; push_cast; norm_num; ring
      rw [e, abs_lt]; constructor <;> norm_num
  have hdiff : ((4 * na - 36350635 : ℤ) : ℝ) * (2 : ℝ) ^ ((0 : ℤ) - 23)
      - ((8 * na - 89478485 : ℤ) : ℝ) * (2 : ℝ) ^ ((-1 : ℤ) - 23) = 16777215 / 16777216 := by
    push_cast; norm_num; ring
  refine ⟨_, _, ?_, ?_, hdiff, ?_⟩
  · unfold Binary32.sunrise
    rw [ha, Option.map_some', h0]
  · unfold Binary32.sunrise
    rw [hsame, ha, Option.map_some', h1]
  · rw [hdiff]; norm_num

theorem sonnendeklination32_eq (T : ℝ) :
    Binary32.sonnendeklination T = f32 (sonnendeklination T) := rfl

theorem abs_sonnendeklination32_sub_le (T : ℝ) :
    |Binary32.sonnendeklination T - sonnendeklination T| ≤ 0.000000025 := by
  rw [sonnendeklination32_eq]
  have h1 := abs_f32_sub_le_rel (sonnendeklination T)
  have h2 := abs_sonnendeklination_le T
  norm_num at h1 h2 ⊢
  linarith

theorem abs_sonnendeklination_sub_le (s t : ℝ) :
    |sonnendeklination s - sonnendeklination t| ≤ 0.007 * |s - t| := by
  unfold sonnendeklination
  rw [← mul_sub, abs_mul, abs_of_pos (by norm_num : (0 : ℝ) < 0.409526325277017)]
  have h := abs_sin_sub_sin_le (0.0169060504029192 * (s - 80.0856919827619))
    (0.0169060504029192 * (t - 80.0856919827619))
  have e : (0.0169060504029192 : ℝ) * (s - 80.0856919827619)
      - 0.0169060504029192 * (t - 80.0856919827619) = 0.0169060504029192 * (s - t) := by ring
  rw [e, abs_mul, abs_of_pos (by norm_num : (0 : ℝ) < 0.0169060504029192)] at h
  have hst := abs_nonneg (s - t)
  nlinarith

theorem deklinationPeriod_fine_bounds :
    371.653056 < deklinationPeriod ∧ deklinationPeriod < 371.653057 := by
  unfold deklinationPeriod
  have h1 := Real.pi_gt_d20
  have h2 := Real.pi_lt_d20
  constructor
  · rw [lt_div_iff₀ (by norm_num)]
    norm_num at h1 ⊢
    linarith
  · rw [div_lt_iff₀ (by norm_num)]
    norm_num at h2 ⊢
    linarith

theorem f32_day_80_plus_period : f32 (80 + deklinationPeriod) = 14799767 / 32768 := by
  obtain ⟨h1, h2⟩ := deklinationPeriod_fine_bounds
  rw [f32_eq_of_near (80 + deklinationPeriod) 8 14799767 (by norm_num)
    (by rw [abs_of_pos (by norm_num at h1 ⊢; linarith)]; norm_num at h1 ⊢; linarith)
    (by rw [abs_of_pos (by norm_num at h1 ⊢; linarith)]; norm_num at h2 ⊢; linarith)
    (by rw [abs_lt]; constructor <;> norm_num at h1 h2 ⊢ <;> linarith)]
  norm_num

theorem sonnendeklination_day_80_gap :
    sonnendeklination (14799767 / 32768) - sonnendeklination 80 ≤ -0.00000007 ∧
    |sonnendeklination (14799767 / 32768)| ≤ 0.001 ∧ |sonnendeklination 80| ≤ 0.001 := by
  have hp1 := Real.pi_gt_d20
  have hp2 := Real.pi_lt_d20
  obtain ⟨hd1, hd2⟩ := sonnendeklination_80_bounds
  have hgap : sonnendeklination (14799767 / 32768) - sonnendeklination 80
      ≤ -0.00000007 := by
    unfold sonnendeklination
    have e0 : (0.0169060504029192 : ℝ) * (14799767 / 32768 - 80.0856919827619)
        = (0.0169060504029192 * (14799767 / 32768 - 80.0856919827619) - 2 * Real.pi)
          + 2 * Real.pi := by ring
    rw [e0, Real.sin_add_two_pi, ← mul_sub, Real.sin_sub_sin]
    -- half the phase difference, a small negative angle
    have hD1 : -0.0000001 < ((0.0169060504029192 : ℝ) * (14799767 / 32768 - 80.0856919827619)
        - 2 * Real.pi - 0.0169060504029192 * (80 - 80.0856919827619)) / 2 := by
      norm_num at hp2 ⊢; linarith
    have hD2 : ((0.0169060504029192 : ℝ) * (14799767 / 32768 - 80.0856919827619)
        - 2 * Real.pi - 0.0169060504029192 * (80 - 80.0856919827619)) / 2
        < -0.00000009 := by
      norm_num at hp1 ⊢; linarith
    -- the mean phase, close to zero
    have hM : |((0.0169060504029192 : ℝ) * (14799767 / 32768 - 80.0856919827619)
        - 2 * Real.pi + 0.0169060504029192 * (80 - 80.0856919827619)) / 2| ≤ 0.0015 := by
      rw [abs_le]; constructor <;> norm_num at hp1 hp2 ⊢ <;> linarith
    generalize ((0.0169060504029192 : ℝ) * (14799767 / 32768 - 80.0856919827619)
        - 2 * Real.pi - 0.0169060504029192 * (80 - 80.0856919827619)) / 2 = D at hD1 hD2
    generalize ((0.0169060504029192 : ℝ) * (14799767 / 32768 - 80.0856919827619)
        - 2 * Real.pi + 0.0169060504029192 * (80 - 80.0856919827619)) / 2 = M at hM
    have hsD : Real.sin D = -Real.sin (-D) := by rw [Real.sin_neg, neg_neg]
    obtain ⟨hs, _⟩ := sin_small_bounds (-D) (by linarith) (by linarith)
    have hcube : (-D) ^ 3 ≤ (0.0000001 : ℝ) ^ 3 :=
      pow_le_pow_left₀ (by linarith) (by linarith) 3
    have hsin : (0.000000089 : ℝ) ≤ Real.sin (-D) := by
      norm_num at hs hcube hD2 ⊢
      linarith
    have hc := one_sub_le_cos_of_abs_le M 0.0015 hM
    have hcos : (0.99999 : ℝ) ≤ Real.cos M := by
      norm_num at hc ⊢
      linarith
    have hprod : (0.000000089 : ℝ) * 0.99999 ≤ Real.sin (-D) * Real.cos M :=
      mul_le_mul hsin hcos (by norm_num) (le_trans (by norm_num) hsin)
    rw [hsD]
    norm_num at hprod ⊢
    nlinarith
  refine ⟨hgap, ?_, ?_⟩
  · have hup : sonnendeklination (14799767 / 32768) ≤ 0 := by
      norm_num at hgap hd2 ⊢; linarith
    have hlo : -0.001 ≤ sonnendeklination (14799767 / 32768) := by
      have hper := sonnendeklination_add_period (14799767 / 32768 - deklinationPeriod)
      have hP := deklinationPeriod_fine_bounds
      have e : (14799767 / 32768 : ℝ) - deklinationPeriod + deklinationPeriod
          = 14799767 / 32768 := by ring
      have hper' : sonnendeklination (14799767 / 32768 - deklinationPeriod + deklinationPeriod)
          = sonnendeklination (14799767 / 32768 - deklinationPeriod) := hper
      rw [e] at hper'
      have hl := abs_le.mp (abs_sonnendeklination_sub_le
        (14799767 / 32768 - deklinationPeriod) 80)
      have hst : |(14799767 / 32768 : ℝ) - deklinationPeriod - 80| ≤ 0.001 := by
        rw [abs_le]; constructor <;> norm_num at hP ⊢ <;> linarith [hP.1, hP.2]
      rw [hper']
      norm_num at hl hst hd1 ⊢
      nlinarith [hl.1, hl.2]
    rw [abs_le]; constructor <;> norm_num at hup hlo ⊢ <;> linarith
  · rw [abs_le]; constructor <;> norm_num at hd1 hd2 ⊢ <;> linarith

/-- C7, as stated, fails on the binary32 code: for day `T = 80` the sum `T + P` is not a
float; it is passed as `14799767 / 2^15`, about `1.1e-5` day short, and the declination
returned there differs from the one returned for `T` (by about `-7.6e-8`). -/
theorem sonnendeklination_not_periodic_binary32 :
    f32 (80 + deklinationPeriod) = 14799767 / 32768 ∧
    Binary32.sonnendeklination (f32 (80 + deklinationPeriod))
      ≠ Binary32.sonnendeklination 80 := by
  refine ⟨f32_day_80_plus_period, ?_⟩
  rw [f32_day_80_plus_period]
  obtain ⟨hg, ha1, ha0⟩ := sonnendeklination_day_80_gap
  have h1 := abs_f32_sub_le_rel (sonnendeklination (14799767 / 32768))
  have h0 := abs_f32_sub_le_rel (sonnendeklination 80)
  rw [sonnendeklination32_eq, sonnendeklination32_eq]
  intro heq
  rw [heq] at h1
  obtain ⟨p1, p2⟩ := abs_le.mp h1
  obtain ⟨p3, p4⟩ := abs_le.mp h0
  norm_num at p1 p2 p3 p4 ha1 ha0 hg
  linarith

/-- C7, amended: over exact real arithmetic the declination is periodic with period
`P = 2*pi/0.0169060504029192`, `sonnendeklination(T + P) = sonnendeklination(T)` for every
real `T`; in the binary32 code, with `T + P` rounded to `float`, the two results agree to
within `1e-6` for every day `T` in `[1, 366]`. -/
theorem sonnendeklination_periodic_exact_and_binary32 (T : ℝ) :
    sonnendeklination (T + deklinationPeriod) = sonnendeklination T ∧
    (1 ≤ T → T ≤ 366 →
      |Binary32.sonnendeklination (f32 (T + deklinationPeriod))
        - Binary32.sonnendeklination T| ≤ 0.000001) := by
  have hper : sonnendeklination (T + deklinationPeriod) = sonnendeklination T :=
    sonnendeklination_add_period T
  refine ⟨hper, ?_⟩
  intro hT1 hT2
  obtain ⟨hP1, hP2⟩ := deklinationPeriod_bounds
  have hx := abs_f32_sub_le_rel (T + deklinationPeriod)
  have hxabs : |T + deklinationPeriod| ≤ 738 := by
    rw [abs_of_pos (by norm_num at hP1 ⊢; linarith)]
    norm_num at hP2 ⊢; linarith
  have hround : |f32 (T + deklinationPeriod) - (T + deklinationPeriod)| ≤ 0.000044 := by
    norm_num at hx hxabs ⊢
    linarith
  have hlip := abs_sonnendeklination_sub_le (f32 (T + deklinationPeriod))
    (T + deklinationPeriod)
  rw [hper] at hlip
  have h1 := abs_le.mp (abs_sonnendeklination32_sub_le (f32 (T + deklinationPeriod)))
  have h2 := abs_le.mp (abs_sonnendeklination32_sub_le T)
  have h3 := abs_le.mp (hlip.trans (mul_le_mul_of_nonneg_left hround (by norm_num)))
  rw [abs_le]
  constructor <;> norm_num at h1 h2 h3 ⊢ <;> linarith [h1.1, h1.2, h2.1, h2.2, h3.1, h3.2]

/-- On day 80, inside `[1, 366]`: exact periodicity and the binary32 tolerance. -/
theorem sonnendeklination_periodic_exact_and_binary32_witness :
    sonnendeklination (80 + deklinationPeriod) = sonnendeklination 80 ∧
    |Binary32.sonnendeklination (f32 (80 + deklinationPeriod))
      - Binary32.sonnendeklination 80| ≤ 0.000001 :=
  ⟨(sonnendeklination_periodic_exact_and_binary32 80).1,
    (sonnendeklination_periodic_exact_and_binary32 80).2 (by norm_num) (by norm_num)⟩

/-! ## Monotonicity in binary32: more declinations than half-day lengths -/

theorem roundEven_nonneg (y : ℝ) (hy : 0 ≤ y) : 0 ≤ roundEven y := by
  have hfl : 0 ≤ ⌊y⌋ := Int.floor_nonneg.mpr hy
  unfold roundEven
  split_ifs <;> omega

theorem roundEven_le_of_le (y : ℝ) (N : ℤ) (hy : y ≤ N) : roundEven y ≤ N := by
  have hfl : ⌊y⌋ ≤ N := by
    have : (⌊y⌋ : ℝ) ≤ N := (Int.floor_le y).trans hy
    exact_mod_cast this
  have h0 := Int.fract_nonneg y
  have hsum : y = ⌊y⌋ + Int.fract y := (Int.floor_add_fract y).symm
  have hlt : 0 < Int.fract y → ⌊y⌋ + 1 ≤ N := by
    intro hpos
    have : (⌊y⌋ : ℝ) < N := by linarith
    have : ⌊y⌋ < N := by exact_mod_cast this
    omega
  unfold roundEven
  split_ifs with ha hb hc
  · exact hfl
  · exact hlt (by linarith)
  · exact hfl
  · push_neg at ha hb
    exact hlt (by linarith)

theorem f32_nonneg (y : ℝ) (hy : 0 ≤ y) : 0 ≤ f32 y := by
  unfold f32
  have hu : (0 : ℝ) < (2 : ℝ) ^ (exponent y - 23) := by positivity
  have h := roundEven_nonneg (y / (2 : ℝ) ^ (exponent y - 23)) (div_nonneg hy hu.le)
  have : (0 : ℝ) ≤ (roundEven (y / (2 : ℝ) ^ (exponent y - 23)) : ℝ) := by exact_mod_cast h
  positivity

theorem f32_le_twelve (y : ℝ) (h0 : 0 ≤ y) (h12 : y ≤ 12) : f32 y ≤ 12 := by
  by_cases h8 : y < 8
  · have herr := abs_le.mp (abs_f32_sub_le_rel y)
    rw [abs_of_nonneg h0] at herr
    norm_num at herr
    linarith [herr.2]
  · push_neg at h8
    have hexp : exponent y = 3 := exponent_eq y 3 (by norm_num)
      (by rw [abs_of_nonneg h0]; norm_num; linarith)
      (by rw [abs_of_nonneg h0]; norm_num; linarith)
    unfold f32
    rw [hexp]
    have hN := roundEven_le_of_le (y / (2 : ℝ) ^ ((3 : ℤ) - 23)) 12582912
      (by rw [div_le_iff₀ (by positivity)]; norm_num; linarith)
    have hN' : (roundEven (y / (2 : ℝ) ^ ((3 : ℤ) - 23)) : ℝ) ≤ 12582912 := by
      exact_mod_cast hN
    norm_num at hN' ⊢
    linarith

/-! ## The binary32 results up to rounding -/

theorem abs_f32_sub_le_of_abs_le (x : ℝ) (hx : |x| ≤ 40) : |f32 x - x| ≤ 0.0000025 := by
  have h := abs_f32_sub_le_rel x
  norm_num at h ⊢
  linarith

theorem abs_zeitgleichung32_le (T : ℝ) : |Binary32.zeitgleichung T| ≤ 0.31 := by
  have he : Binary32.zeitgleichung T = f32 (zeitgleichung T) := rfl
  have h1 := abs_zeitgleichung_le_sum T
  have h2 := abs_f32_sub_le_of_abs_le (zeitgleichung T) (by norm_num at h1 ⊢; linarith)
  have h3 := abs_sub_abs_le_abs_sub (f32 (zeitgleichung T)) (zeitgleichung T)
  rw [he]
  norm_num at h1 h2 h3 ⊢
  linarith

theorem zeitdifferenz32_some (c : Config) (D H : ℝ)
    (hH : Binary32.zeitdifferenz c D = some H) : 0 ≤ H ∧ H ≤ 12 := by
  unfold Binary32.zeitdifferenz quotient acos at hH
  by_cases hden : Binary32.divisor c D = 0
  · rw [if_pos hden] at hH
    simp at hH
  · rw [if_neg hden] at hH
    simp only [Option.some_bind] at hH
    by_cases h2 : -1 ≤ (Real.sin Binary32._h - Real.sin (Binary32._b c) * Real.sin D)
        / Binary32.divisor c D ∧
        (Real.sin Binary32._h - Real.sin (Binary32._b c) * Real.sin D)
          / Binary32.divisor c D ≤ 1
    · rw [if_pos h2] at hH
      simp only [Option.map_some', Option.some.injEq] at hH
      rw [← hH]
      have hp := PI_pos
      have ha0 := Real.arccos_nonneg ((Real.sin Binary32._h
        - Real.sin (Binary32._b c) * Real.sin D) / Binary32.divisor c D)
      have ha1 := Real.arccos_le_pi ((Real.sin Binary32._h
        - Real.sin (Binary32._b c) * Real.sin D) / Binary32.divisor c D)
      have hy0 : 0 ≤ 12.0 * Real.arccos ((Real.sin Binary32._h
          - Real.sin (Binary32._b c) * Real.sin D) / Binary32.divisor c D) / PI := by
        positivity
      have hy1 : 12.0 * Real.arccos ((Real.sin Binary32._h
          - Real.sin (Binary32._b c) * Real.sin D) / Binary32.divisor c D) / PI ≤ 12 := by
        unfold PI
        rw [div_le_iff₀ Real.pi_pos]
        norm_num
        linarith
      exact ⟨f32_nonneg _ hy0, f32_le_twelve _ hy0 hy1⟩
    · rw [if_neg h2] at hH
      simp at hH

theorem abs_f32_sub_le_of_le (x B : ℝ) (hx : |x| ≤ B) :
    |f32 x - x| ≤ B / 16777216 + (2 : ℝ) ^ (-150 : ℤ) := by
  have h := abs_f32_sub_le_rel x
  have : |x| / 16777216 ≤ B / 16777216 := div_le_div_of_nonneg_right hx (by norm_num)
  linarith

theorem aufgang32_error (H z : ℝ) (hH0 : 0 ≤ H) (hH12 : H ≤ 12) (hz : |z| ≤ 0.31) :
    |f32 (f32 (12 - H) - z) - (12 - H - z)| ≤ 0.0000015 ∧
    |f32 (f32 (12 - H) - z)| ≤ 12.4 := by
  obtain ⟨hz1, hz2⟩ := abs_le.mp hz
  have e1 := abs_le.mp (abs_f32_sub_le_of_le (12 - H) 12
    (by rw [abs_le]; constructor <;> linarith))
  generalize f32 (12 - H) = t at e1
  have e2 := abs_le.mp (abs_f32_sub_le_of_le (t - z) 12.4
    (by rw [abs_le]; constructor <;> norm_num at e1 hz1 hz2 ⊢ <;> linarith [e1.1, e1.2]))
  generalize f32 (t - z) = a at e2
  constructor <;> rw [abs_le] <;> constructor <;>
    norm_num at e1 e2 hz1 hz2 ⊢ <;> linarith [e1.1, e1.2, e2.1, e2.2]

theorem untergang32_error (H z : ℝ) (hH0 : 0 ≤ H) (hH12 : H ≤ 12) (hz : |z| ≤ 0.31) :
    |f32 (f32 (12 + H) - z) - (12 + H - z)| ≤ 0.000003 ∧
    |f32 (f32 (12 + H) - z)| ≤ 24.4 := by
  obtain ⟨hz1, hz2⟩ := abs_le.mp hz
  have e1 := abs_le.mp (abs_f32_sub_le_of_le (12 + H) 24
    (by rw [abs_le]; constructor <;> linarith))
  generalize f32 (12 + H) = t at e1
  have e2 := abs_le.mp (abs_f32_sub_le_of_le (t - z) 24.4
    (by rw [abs_le]; constructor <;> norm_num at e1 hz1 hz2 ⊢ <;> linarith [e1.1, e1.2]))
  generalize f32 (t - z) = a at e2
  constructor <;> rw [abs_le] <;> constructor <;>
    norm_num at e1 e2 hz1 hz2 ⊢ <;> linarith [e1.1, e1.2, e2.1, e2.2]

/-- The four rounded results of a day on which the half-day length `H` is defined, each
within rounding of the expression of the source. -/
theorem results32_of_zeitdifferenz (c : Config) (hL : |c.LAENGE| ≤ 180) (T H : ℝ)
    (isDST : Bool)
    (hH : Binary32.zeitdifferenz c (Binary32.sonnendeklination T) = some H) :
    ∃ a u r s, Binary32._aufgang c T = some a ∧ Binary32._untergang c T = some u ∧
      Binary32.sunrise c T isDST = some r ∧ Binary32.sunset c T isDST = some s ∧
      |a - (12 - H - Binary32.zeitgleichung T)| ≤ 0.0000015 ∧
      |u - (12 + H - Binary32.zeitgleichung T)| ≤ 0.000003 ∧
      |r - (a - c.LAENGE / 15.0 + (zone isDST : ℝ))| ≤ 0.0000016 ∧
      |s - (u - c.LAENGE / 15.0 + (zone isDST : ℝ))| ≤ 0.0000023 := by
  obtain ⟨hH0, hH12⟩ := zeitdifferenz32_some c _ H hH
  have hz := abs_zeitgleichung32_le T
  obtain ⟨hL1, hL2⟩ := abs_le.mp hL
  have hzone : (0 : ℝ) ≤ (zone isDST : ℝ) ∧ ((zone isDST : ℤ) : ℝ) ≤ 2 := by
    cases isDST <;> simp [zone]
  obtain ⟨hea, haabs⟩ := aufgang32_error H (Binary32.zeitgleichung T) hH0 hH12 hz
  obtain ⟨heu, huabs⟩ := untergang32_error H (Binary32.zeitgleichung T) hH0 hH12 hz
  have ha : Binary32._aufgang c T
      = some (f32 (f32 (12 - H) - Binary32.zeitgleichung T)) := by
    unfold Binary32._aufgang
    rw [hH, Option.map_some']
  have hu : Binary32._untergang c T
      = some (f32 (f32 (12 + H) - Binary32.zeitgleichung T)) := by
    unfold Binary32._untergang
    rw [hH, Option.map_some']
  generalize f32 (f32 (12 - H) - Binary32.zeitgleichung T) = a at ha hea haabs
  generalize f32 (f32 (12 + H) - Binary32.zeitgleichung T) = u at hu heu huabs
  obtain ⟨a1, a2⟩ := abs_le.mp haabs
  obtain ⟨u1, u2⟩ := abs_le.mp huabs
  have hxr : |a - c.LAENGE / 15.0 + (zone isDST : ℝ)| ≤ 26.4 := by
    rw [abs_le]
    constructor <;> norm_num at a1 a2 ⊢ <;> linarith [hzone.1, hzone.2]
  have hxs : |u - c.LAENGE / 15.0 + (zone isDST : ℝ)| ≤ 38.4 := by
    rw [abs_le]
    constructor <;> norm_num at u1 u2 ⊢ <;> linarith [hzone.1, hzone.2]
  have her := abs_f32_sub_le_of_le _ 26.4 hxr
  have hes := abs_f32_sub_le_of_le _ 38.4 hxs
  have hr : Binary32.sunrise c T isDST
      = some (f32 (a - c.LAENGE / 15.0 + (zone isDST : ℝ))) := by
    unfold Binary32.sunrise
    rw [ha, Option.map_some']
  have hs : Binary32.sunset c T isDST
      = some (f32 (u - c.LAENGE / 15.0 + (zone isDST : ℝ))) := by
    unfold Binary32.sunset
    rw [hu, Option.map_some']
  refine ⟨a, u, _, _, ha, hu, hr, hs, hea, heu, ?_, ?_⟩
  · refine her.trans ?_
    norm_num
  · refine hes.trans ?_
    norm_num

/-- C2, amended: over exact real arithmetic, raising the configured longitude from `L` to
`L + 15` degrees, latitude held fixed, lowers sunrise and sunset by exactly 1.0 for every
day and flag (undefined exactly when the old value is); in the binary32 code, for
longitudes within `[-180, 180]`, the old result minus the new one is 1.0 to within
`1e-5`. -/
theorem longitude_plus_15_exact_and_binary32 (B L T : ℝ) (isDST : Bool) :
    sunrise ⟨B, L + 15⟩ T isDST = (sunrise ⟨B, L⟩ T isDST).map (fun r => r - 1) ∧
    sunset ⟨B, L + 15⟩ T isDST = (sunset ⟨B, L⟩ T isDST).map (fun s => s - 1) ∧
    (∀ r0 r1, sunrise ⟨B, L⟩ T isDST = some r0 → sunrise ⟨B, L + 15⟩ T isDST = some r1 →
      r0 - r1 = 1) ∧
    (∀ s0 s1, sunset ⟨B, L⟩ T isDST = some s0 → sunset ⟨B, L + 15⟩ T isDST = some s1 →
      s0 - s1 = 1) ∧
    (-180 ≤ L → L + 15 ≤ 180 →
      (∀ r0 r1, Binary32.sunrise ⟨B, L⟩ T isDST = some r0 →
        Binary32.sunrise ⟨B, L + 15⟩ T isDST = some r1 → |(r0 - r1) - 1| ≤ 0.00001) ∧
      (∀ s0 s1, Binary32.sunset ⟨B, L⟩ T isDST = some s0 →
        Binary32.sunset ⟨B, L + 15⟩ T isDST = some s1 → |(s0 - s1) - 1| ≤ 0.00001)) := by
  obtain ⟨e1, e2, e3, e4⟩ := longitude_plus_15_exact B L T isDST
  refine ⟨e1, e2, e3, e4, ?_⟩
  intro hL1 hL2
  have hz : Binary32.zeitdifferenz ⟨B, L + 15⟩ (Binary32.sonnendeklination T)
      = Binary32.zeitdifferenz ⟨B, L⟩ (Binary32.sonnendeklination T) := rfl
  cases hH : Binary32.zeitdifferenz ⟨B, L⟩ (Binary32.sonnendeklination T) with
  | none =>
    constructor
    · intro r0 r1 h0
      unfold Binary32.sunrise Binary32._aufgang at h0
      rw [hH] at h0
      simp at h0
    · intro s0 s1 h0
      unfold Binary32.sunset Binary32._untergang at h0
      rw [hH] at h0
      simp at h0
  | some H =>
    obtain ⟨a, u, r, s, ha, hu, hr, hs, _, _, hr', hs'⟩ :=
      results32_of_zeitdifferenz ⟨B, L⟩ (by rw [abs_le]; constructor <;> linarith)
        T H isDST hH
    obtain ⟨a2, u2, r2, s2, ha2, hu2, hr2, hs2, _, _, hr2', hs2'⟩ :=
      results32_of_zeitdifferenz ⟨B, L + 15⟩
        (by rw [abs_le]; constructor <;> simp only <;> linarith) T H isDST (hz.trans hH)
    have haa : Binary32._aufgang ⟨B, L + 15⟩ T = Binary32._aufgang ⟨B, L⟩ T := rfl
    have huu : Binary32._untergang ⟨B, L + 15⟩ T = Binary32._untergang ⟨B, L⟩ T := rfl
    rw [haa, ha] at ha2
    rw [huu, hu] at hu2
    have ea : a = a2 := Option.some.inj ha2
    have eu : u = u2 := Option.some.inj hu2
    subst ea
    subst eu
    obtain ⟨p1, p2⟩ := abs_le.mp hr'
    obtain ⟨p3, p4⟩ := abs_le.mp hr2'
    obtain ⟨q1, q2⟩ := abs_le.mp hs'
    obtain ⟨q3, q4⟩ := abs_le.mp hs2'
    simp only at p3 p4 q3 q4
    constructor
    · intro r0 r1 h0 h1
      rw [hr] at h0
      rw [hr2] at h1
      rw [← Option.some.inj h0, ← Option.some.inj h1, abs_le]
      constructor <;> norm_num at p1 p2 p3 p4 ⊢ <;> linarith
    · intro s0 s1 h0 h1
      rw [hs] at h0
      rw [hs2] at h1
      rw [← Option.some.inj h0, ← Option.some.inj h1, abs_le]
      constructor <;> norm_num at q1 q2 q3 q4 ⊢ <;> linarith

/-- At latitude 50 on day 80, moving the longitude from 10 to 25 degrees: the exact values
drop by 1, the binary32 values by 1 to within `1e-5`. -/
theorem longitude_plus_15_exact_and_binary32_witness :
    (∃ r0 r1, sunrise ⟨50, 10⟩ 80 false = some r0 ∧
      sunrise ⟨50, 10 + 15⟩ 80 false = some r1 ∧ r0 - r1 = 1) ∧
    (∃ r0 r1, Binary32.sunrise ⟨50, 10⟩ 80 false = some r0 ∧
      Binary32.sunrise ⟨50, 10 + 15⟩ 80 false = some r1 ∧ |(r0 - r1) - 1| ≤ 0.00001) := by
  constructor
  · obtain ⟨H, hH, _, _⟩ :=
      zeitdifferenz_defined_of_breite_le_65 ⟨50, 10⟩ (by norm_num) 80
    have hH' : zeitdifferenz ⟨50, 10 + 15⟩ (sonnendeklination 80) = some H := hH
    obtain ⟨hr0, _⟩ := sunrise_sunset_of_zeitdifferenz ⟨50, 10⟩ 80 H false hH
    obtain ⟨hr1, _⟩ := sunrise_sunset_of_zeitdifferenz ⟨50, 10 + 15⟩ 80 H false hH'
    exact ⟨_, _, hr0, hr1,
      (longitude_plus_15_exact_and_binary32 50 10 80 false).2.2.1 _ _ hr0 hr1⟩
  · obtain ⟨nH, _, _, _, hH, _⟩ := scenario32 10
    obtain ⟨nH', _, _, _, hH', _⟩ := scenario32 (10 + 15)
    obtain ⟨_, _, r0, _, _, _, hr0, _⟩ :=
      results32_of_zeitdifferenz ⟨50, 10⟩ (by norm_num) 80 _ false hH
    obtain ⟨_, _, r1, _, _, _, hr1, _⟩ :=
      results32_of_zeitdifferenz ⟨50, 10 + 15⟩ (by norm_num) 80 _ false hH'
    exact ⟨r0, r1, hr0, hr1,
      ((longitude_plus_15_exact_and_binary32 50 10 80 false).2.2.2.2
        (by norm_num) (by norm_num)).1 r0 r1 hr0 hr1⟩

end Astro
